import Mathlib

/-!
# Verification of the value-marshaling subsystem (src/core/marsh.c)

This file embeds the marshaling writer and reader of the repository's
src/src/core/marsh.c into Lean and proves properties of the embedding.

Conventions of the embedding:

* Machine integers (C int32_t) are modelled as Lean Int; where C arithmetic
  wraps, the wrap is explicit via u32 / i32ofU32 (two's-complement images).
* C byte buffers are List Nat.  The writer's output buffer is kept reversed
  (most recent event first) so that appending is constant-time; the accessors
  outputEvents / outputBytes restore wire order.
* The writer's buffer is instrumented: besides bytes it records the commit
  points of the three interning tables (the seen table of MARK_SEEN, and the
  seen_envs / seen_defs vectors) as events, so that ordering claims about
  reference-table commits can be stated.  Bytes on the wire are exactly the
  byte events.
* Heap pointers do not exist; values are trees.  Pointer identity between
  distinct nodes of a tree never holds, so the identity-keyed entries of the
  writer's seen table (arrays, tables, buffers, functions, fibers) can never
  be hit and are modelled by just advancing nextid; the content-keyed entries
  (numbers, strings, symbols, keywords, for which janet_equals compares
  contents) are stored and can be hit.  Deep-equal tuples or structs that C
  would also dedup are re-emitted instead; both encodings decode to equal
  values.  The reader's lookup vector is modelled in full.
* The reader's cursor (const uint8_t *data) is the remaining suffix of the
  input; the NULL cursor that unmarshal_one_abstract can produce is the none
  case of an Option.  A later dereference of that NULL cursor (undefined
  behavior in C) is modelled as the distinguished error nullData.
* In-place initialization of decoded heap objects (arrays, tables, functions,
  fibers, funcdefs, funcenvs are pushed to the lookup vectors before their
  contents exist) is modelled by pushing a placeholder and replacing it once
  the object is complete.  The cross-object aliasing mutation of funcenv
  offset/length fields during fiber decoding (marsh.c 845-851) updates the
  local copy only; no claim depends on the aliased copies.
* Doubles: a Janet number is either an integral value in int32 range (the
  janet_checkintrange fast path of marsh.c 322-328, modelled by the jint
  constructor) or an arbitrary other double represented by its 8 host
  (little-endian) bytes (jreal).  The big-endian read path is modelled
  separately (be_real_read).
* Code of the repository that is outside src/ (janet.h, fiber.h, the bytecode
  verifier, abstract-type hooks) is modelled from the spec where needed; each
  such definition carries a note.
-/

namespace Marsh

/-! ## Lead bytes and constants (marsh.c 41-64, 231-232, 138) -/

def LB_REAL : Nat := 200
def LB_NIL : Nat := 201
def LB_FALSE : Nat := 202
def LB_TRUE : Nat := 203
def LB_FIBER : Nat := 204
def LB_INTEGER : Nat := 205
def LB_STRING : Nat := 206
def LB_SYMBOL : Nat := 207
def LB_KEYWORD : Nat := 208
def LB_ARRAY : Nat := 209
def LB_TUPLE : Nat := 210
def LB_TABLE : Nat := 211
def LB_TABLE_PROTO : Nat := 212
def LB_STRUCT : Nat := 213
def LB_BUFFER : Nat := 214
def LB_FUNCTION : Nat := 215
def LB_REGISTRY : Nat := 216
def LB_ABSTRACT : Nat := 217
def LB_REFERENCE : Nat := 218
def LB_FUNCENV_REF : Nat := 219
def LB_FUNCDEF_REF : Nat := 220

/-- Defined in marsh.c 231. -/
def JANET_FIBER_FLAG_HASCHILD : Nat := 2 ^ 29

/-- Defined in marsh.c 232. -/
def JANET_STACKFRAME_HASENV : Nat := 2 ^ 30

/-- Modelled from the spec (4.6): the recursion bound, implementation-defined,
e.g. 1024; the header defining JANET_RECURSION_GUARD is not under src/. -/
def JANET_RECURSION_GUARD : Nat := 1024

/-- Modelled from the spec (3, 4.6): a stack frame occupies FRAME_SIZE slots of
the fiber's data array; the header defining JANET_FRAME_SIZE is not under
src/.  The concrete value does not matter to any claim. -/
def JANET_FRAME_SIZE : Int := 4

/-- Modelled from the spec: funcdef feature-flag bits (janet.h is not under
src/); five distinct single bits, plus nothing else relevant here. -/
def JANET_FUNCDEF_FLAG_HASNAME : Nat := 0x80000
def JANET_FUNCDEF_FLAG_HASSOURCE : Nat := 0x100000
def JANET_FUNCDEF_FLAG_HASDEFS : Nat := 0x200000
def JANET_FUNCDEF_FLAG_HASENVS : Nat := 0x400000
def JANET_FUNCDEF_FLAG_HASSOURCEMAP : Nat := 0x800000

/-- Modelled from the spec: the alive fiber status value (fiber.h is not under
src/); the status lives in bits 20-27 of the fiber flags word. -/
def JANET_STATUS_ALIVE : Nat := 15

/-! ## Two's-complement helpers for C int32 arithmetic -/

/-- The 32-bit unsigned image of a C int32 value. -/
def u32 (x : Int) : Nat := (x % 4294967296).toNat

/-- Reinterpret a 32-bit unsigned image as a signed int32. -/
def i32ofU32 (u : Nat) : Int :=
  if u < 2147483648 then (u : Int) else (u : Int) - 4294967296

/-- Wrap an Int to int32 (the effect of C int32 overflow, which gcc wraps). -/
def s32 (x : Int) : Int := i32ofU32 (u32 x)

/-- C bitwise-or of an int32 with a constant mask (flags |= m). -/
def orFlag (x : Int) (m : Nat) : Int := i32ofU32 (u32 x ||| m)

/-- C bitwise-and-not of an int32 with a constant single-bit mask
(flags and-equals complement of m). -/
def clearFlag (x : Int) (m : Nat) : Int := i32ofU32 (u32 x &&& (4294967295 ^^^ m))

/-- C test (x and m) nonzero for an int32 x and constant mask m. -/
def flagTest (x : Int) (m : Nat) : Bool := u32 x &&& m ≠ 0

/-! ## The data model (janet.h objects, as reachable from marsh.c) -/

mutual

/-- A Janet value.  Kinds that marsh.c can encounter; cfunctions and raw
pointers (which always panic in the writer's default case) are omitted. -/
inductive Janet where
  | jnil
  | jfalse
  | jtrue
  /-- A number whose double value is integral and in int32 range
  (janet_checkintrange); only such numbers take the integer fast path. -/
  | jint (x : Int)
  /-- Any other number, as the 8 bytes of its host (little-endian) double
  representation; the writer copies these bytes to the wire unchanged. -/
  | jreal (bytes : List Nat)
  | jstring (s : List Nat)
  | jsymbol (s : List Nat)
  | jkeyword (s : List Nat)
  | jbuffer (b : List Nat)
  | jarray (xs : List Janet)
  /-- A tuple; flag is the 16-bit user flag (janet_tuple_flag shifted down). -/
  | jtuple (flag : Int) (xs : List Janet)
  /-- A table with optional prototype (which is itself a table when present)
  and its entries in slot-iteration order, nil-key slots skipped. -/
  | jtable (proto : Option Janet) (kvs : List (Janet × Janet))
  | jstruct (kvs : List (Janet × Janet))
  | jfunction (f : JanetFunction)
  | jfiber (f : JanetFiber)
  /-- A host abstract instance: its type name, janet_abstract_size, and, when
  the type registers a marshal hook, the bytes that hook emits for this
  instance (the hooks themselves are external to this repository). -/
  | jabstract (tyname : List Nat) (size : Int) (mhook : Option (List Nat))

/-- A function definition (JanetFuncDef).  The C length fields
constants_length, bytecode_length, environments_length, defs_length are the
lengths of the corresponding lists; NULL optional fields are none / []. -/
inductive JanetFuncDef where
  | mk (flags slotcount arity : Int)
       (constants : List Janet)
       (bytecode : List Nat)
       (environments : List Int)
       (defs : List JanetFuncDef)
       (name : Option (List Nat))
       (source : Option (List Nat))
       (sourcemap : List (Int × Int))

/-- The union member of a JanetFuncEnv: as.fiber when on-stack,
as.values when off-stack; which one is valid is decided by offset. -/
inductive EnvAs where
  | fib (f : JanetFiber)
  | vals (vs : List Janet)

/-- A function environment (JanetFuncEnv). -/
inductive JanetFuncEnv where
  | mk (offset length : Int) (contents : EnvAs)

/-- A closure (JanetFunction): its def and captured environments. -/
inductive JanetFunction where
  | mk (fdef : JanetFuncDef) (envs : List JanetFuncEnv)

/-- A stack frame (JanetStackFrame).  pc is stored as the bytecode offset
(the C field is a pointer; marsh.c serializes pc minus def bytecode).
func is none for a C-function frame. -/
inductive JanetStackFrame where
  | mk (flags prevframe pc : Int)
       (func : Option JanetFunction)
       (env : Option JanetFuncEnv)

/-- A fiber (JanetFiber).  The data array holds the value stack; the frame
structs that C interleaves into that array at offset i - JANET_FRAME_SIZE are
modelled as the association list frames, keyed by the frame base offset i. -/
inductive JanetFiber where
  | mk (flags frame stackstart stacktop maxstack : Int)
       (data : List Janet)
       (frames : List (Int × JanetStackFrame))
       (child : Option JanetFiber)

end

/-! ### Field accessors -/

def JanetFuncDef.flags : JanetFuncDef → Int
  | .mk f _ _ _ _ _ _ _ _ _ => f

def JanetFuncDef.slotcount : JanetFuncDef → Int
  | .mk _ s _ _ _ _ _ _ _ _ => s

def JanetFuncDef.arity : JanetFuncDef → Int
  | .mk _ _ a _ _ _ _ _ _ _ => a

def JanetFuncDef.constants : JanetFuncDef → List Janet
  | .mk _ _ _ c _ _ _ _ _ _ => c

def JanetFuncDef.bytecode : JanetFuncDef → List Nat
  | .mk _ _ _ _ b _ _ _ _ _ => b

def JanetFuncDef.environments : JanetFuncDef → List Int
  | .mk _ _ _ _ _ e _ _ _ _ => e

def JanetFuncDef.defs : JanetFuncDef → List JanetFuncDef
  | .mk _ _ _ _ _ _ d _ _ _ => d

def JanetFuncDef.name : JanetFuncDef → Option (List Nat)
  | .mk _ _ _ _ _ _ _ n _ _ => n

def JanetFuncDef.source : JanetFuncDef → Option (List Nat)
  | .mk _ _ _ _ _ _ _ _ s _ => s

def JanetFuncDef.sourcemap : JanetFuncDef → List (Int × Int)
  | .mk _ _ _ _ _ _ _ _ _ m => m

def JanetFuncDef.withFlags (d : JanetFuncDef) (f : Int) : JanetFuncDef :=
  match d with
  | .mk _ s a c b e ds n src m => .mk f s a c b e ds n src m

def JanetFuncEnv.offset : JanetFuncEnv → Int
  | .mk o _ _ => o

def JanetFuncEnv.length : JanetFuncEnv → Int
  | .mk _ l _ => l

def JanetFuncEnv.contents : JanetFuncEnv → EnvAs
  | .mk _ _ c => c

def JanetFuncEnv.withOffsetLength (e : JanetFuncEnv) (o l : Int) : JanetFuncEnv :=
  match e with
  | .mk _ _ c => .mk o l c

def JanetFunction.fdef : JanetFunction → JanetFuncDef
  | .mk d _ => d

def JanetFunction.envs : JanetFunction → List JanetFuncEnv
  | .mk _ e => e

def JanetStackFrame.flags : JanetStackFrame → Int
  | .mk f _ _ _ _ => f

def JanetStackFrame.prevframe : JanetStackFrame → Int
  | .mk _ p _ _ _ => p

def JanetStackFrame.pc : JanetStackFrame → Int
  | .mk _ _ p _ _ => p

def JanetStackFrame.func : JanetStackFrame → Option JanetFunction
  | .mk _ _ _ f _ => f

def JanetStackFrame.env : JanetStackFrame → Option JanetFuncEnv
  | .mk _ _ _ _ e => e

def JanetFiber.flags : JanetFiber → Int
  | .mk f _ _ _ _ _ _ _ => f

def JanetFiber.frame : JanetFiber → Int
  | .mk _ f _ _ _ _ _ _ => f

def JanetFiber.stackstart : JanetFiber → Int
  | .mk _ _ s _ _ _ _ _ => s

def JanetFiber.stacktop : JanetFiber → Int
  | .mk _ _ _ s _ _ _ _ => s

def JanetFiber.maxstack : JanetFiber → Int
  | .mk _ _ _ _ m _ _ _ => m

def JanetFiber.data : JanetFiber → List Janet
  | .mk _ _ _ _ _ d _ _ => d

def JanetFiber.frames : JanetFiber → List (Int × JanetStackFrame)
  | .mk _ _ _ _ _ _ fr _ => fr

def JanetFiber.child : JanetFiber → Option JanetFiber
  | .mk _ _ _ _ _ _ _ c => c

/-- Modelled from the spec: janet_fiber_status reads the status bits out of
the fiber flags word (fiber.h is not under src/; status occupies bits 20-27).
What matters to the claims is only that the status is a function of the
flags word and that JANET_STATUS_ALIVE is one value of it. -/
def janet_fiber_status (f : JanetFiber) : Nat := (u32 f.flags >>> 20) &&& 0xFF

/-- Modelled from the spec: the JanetType tag of a value (janet.h is not under
src/).  The writer relies on nil, false, true being 1, 2, 3 (it emits
200 + type and expects LB_NIL, LB_FALSE, LB_TRUE); the remaining tags only
need to be distinct. -/
def janet_type : Janet → Nat
  | .jint _ => 0
  | .jreal _ => 0
  | .jnil => 1
  | .jfalse => 2
  | .jtrue => 3
  | .jfiber _ => 4
  | .jbuffer _ => 5
  | .jstring _ => 6
  | .jsymbol _ => 7
  | .jkeyword _ => 8
  | .jarray _ => 9
  | .jtuple _ _ => 10
  | .jtable _ _ => 11
  | .jstruct _ => 12
  | .jfunction _ => 13
  | .jabstract _ _ _ => 14

/-! ## Errors and the state monads -/

/-- The distinct janet_panic sites of the writer. -/
inductive MarshErr where
  /-- marsh.c 240: cannot marshal alive fiber. -/
  | aliveFiber
  /-- marsh.c 252: cannot marshal fiber with c stackframe. -/
  | cStackFrame
  /-- marsh.c 303: try to marshal unregistered abstract type. -/
  | unregisteredAbstract
  /-- marsh.c 483: no registry value and cannot marshal (default case). -/
  | noRegistryValue
  /-- marsh.c 138: MARSH_STACKCHECK stack overflow. -/
  | stackOverflow
  /-- Dereference of garbage memory (union misuse, NULL name with flag set,
  missing frame struct): undefined behavior in C, an explicit error here. -/
  | ub
  /-- Artificial: the step fuel of the embedding ran out (no C counterpart;
  sufficient fuel is always supplied in the theorems). -/
  | fuel
  deriving DecidableEq

/-- The distinct janet_panic sites of the reader. -/
inductive UErr where
  /-- MARSH_EOS, marsh.c 519-521: unexpected end of source. -/
  | eos
  /-- marsh.c 543: expected integer. -/
  | expectedInteger
  /-- marsh.c 553-557: janet_asserttype failure. -/
  | badType
  /-- marsh.c 1102: invalid reference. -/
  | invalidReference
  /-- marsh.c 592: invalid funcenv reference. -/
  | invalidEnvRef
  /-- marsh.c 639: invalid funcdef reference. -/
  | invalidDefRef
  /-- marsh.c 762: funcdef has invalid bytecode. -/
  | invalidBytecode
  /-- marsh.c 1125: unknown byte. -/
  | unknownByte
  /-- marsh.c 138: MARSH_STACKCHECK stack overflow (unmarshal_one, 953). -/
  | stackOverflow
  /-- marsh.c 807: fiber has incorrect stack setup. -/
  | fiberStackSetup
  /-- marsh.c 856: fiber stackframe size mismatch. -/
  | frameSizeMismatch
  /-- marsh.c 859: fiber stackframe has invalid pc. -/
  | framePC
  /-- marsh.c 862: fibre stackframe does not align with previous frame. -/
  | framePrevframe
  /-- marsh.c 881: fiber has too many stackframes. -/
  | tooManyFrames
  /-- marsh.c 609: invalid funcenv offset. -/
  | funcenvOffset
  /-- marsh.c 611: invalid funcenv length. -/
  | funcenvLength
  /-- marsh.c 846: funcenv offset does not match fiber frame. -/
  | frameEnvOffset
  /-- marsh.c 848: funcenv length does not match fiber frame. -/
  | frameEnvLength
  /-- JANET_OUT_OF_MEMORY (marsh.c 814): the malloc of the fiber data array
  fails (a negative int32 capacity converts to a huge size_t). -/
  | oom
  /-- An out-of-bounds frame-struct or stack-slot write in the fiber data
  array, or dereference of the NULL cursor produced by
  unmarshal_one_abstract: undefined behavior in C, an explicit error here. -/
  | ub
  /-- Dereference of the NULL cursor produced by unmarshal_one_abstract
  (undefined behavior in C, an explicit error here). -/
  | nullData
  /-- Artificial: the step fuel of the embedding ran out. -/
  | fuel
  deriving DecidableEq

/-- A state-with-errors computation; the state (in particular the output
buffer) survives an error, as it does across janet_panic's longjmp. -/
def XM (ε σ α : Type) := σ → Except ε α × σ

instance : Monad (XM ε σ) where
  pure a := fun st => (.ok a, st)
  bind m f := fun st =>
    match m st with
    | (.ok a, st') => f a st'
    | (.error e, st') => (.error e, st')

def XM.throw (e : ε) : XM ε σ α := fun st => (.error e, st)

def XM.getState : XM ε σ σ := fun st => (.ok st, st)

def XM.run (m : XM ε σ α) (st : σ) : Except ε α × σ := m st

/-! ## Writer state (MarshalState, marsh.c 32-39) -/

/-- An event of the instrumented output buffer. -/
inductive WEvent where
  /-- A byte appended to the output buffer. -/
  | b (x : Nat)
  /-- MARK_SEEN (marsh.c 289-290): a commit to the seen reference table. -/
  | mark
  /-- janet_v_push(st->seen_envs, env) (marsh.c 150). -/
  | markEnv
  /-- janet_v_push(st->seen_defs, def) (marsh.c 184). -/
  | markDef
  deriving DecidableEq

/-- A key of the modelled seen table: the content-compared value kinds
(janet_equals compares these by contents, so distinct tree nodes can
collide); identity-compared kinds are never stored (see the header comment). -/
inductive SKey where
  | real (bytes : List Nat)
  | str (s : List Nat)
  | sym (s : List Nat)
  | key (s : List Nat)
  deriving DecidableEq

/-- The content key of a value, when janet_equals compares it by content. -/
def skeyOf : Janet → Option SKey
  | .jreal bs => some (.real bs)
  | .jstring s => some (.str s)
  | .jsymbol s => some (.sym s)
  | .jkeyword s => some (.key s)
  | _ => none

/-- The value a content key denotes. -/
def skeyVal : SKey → Janet
  | .real bs => .jreal bs
  | .str s => .jstring s
  | .sym s => .jsymbol s
  | .key s => .jkeyword s

/-- MarshalState (marsh.c 32-39).  buf is reversed (latest event first);
seen maps content keys to ids; rreg is the optional reverse registry
(value to symbol name, the symbol-valued entries of the C table); the
seen_envs / seen_defs interning vectors are modelled by their lengths
(identity scans over them cannot hit in a tree-shaped value graph). -/
structure MarshalState where
  revbuf : List WEvent
  seen : List (SKey × Nat)
  rreg : Option (Janet → Option (List Nat))
  seen_envs : Nat
  seen_defs : Nat
  nextid : Nat

abbrev MarshM (α : Type) := XM MarshErr MarshalState α

def janet_panic (e : MarshErr) : MarshM α := XM.throw e

/-- MARSH_STACKCHECK (marsh.c 138). -/
def stackcheck (flags : Int) : MarshM Unit :=
  if JANET_RECURSION_GUARD < (u32 flags &&& 0xFFFF) then janet_panic .stackOverflow
  else pure ()

/-- janet_buffer_push_u8 (via pushbyte, marsh.c 123-125). -/
def pushbyte (x : Nat) : MarshM Unit :=
  fun st => (.ok (), { st with revbuf := .b x :: st.revbuf })

/-- janet_buffer_push_bytes (via pushbytes, marsh.c 127-129). -/
def pushbytes (bs : List Nat) : MarshM Unit :=
  fun st => (.ok (), { st with revbuf := (bs.map WEvent.b).reverse ++ st.revbuf })

/-- The bytes pushint emits for an int32 x (marsh.c 104-121).  Bit
extraction on possibly negative values goes through the 32-bit image u32;
the shifts are C arithmetic shifts, whose low bits agree with these. -/
def pushintBytes (x : Int) : List Nat :=
  if 0 ≤ x ∧ x < 128 then
    [x.toNat]
  else if x ≤ 8191 ∧ -8192 ≤ x then
    [((u32 x >>> 8) &&& 0x3F) ||| 0x80, u32 x &&& 0xFF]
  else
    [LB_INTEGER, (u32 x >>> 24) &&& 0xFF, (u32 x >>> 16) &&& 0xFF,
     (u32 x >>> 8) &&& 0xFF, u32 x &&& 0xFF]

/-- pushint (marsh.c 104-121). -/
def pushint (x : Int) : MarshM Unit := pushbytes (pushintBytes x)

/-- MARK_SEEN (marsh.c 289-290): janet_table_put(seen, x, nextid++).  Only
content-keyed values are stored (identity keys cannot be hit; header
comment); the id is consumed either way, and the commit is recorded as a
mark event. -/
def mark_seen (x : Janet) : MarshM Unit :=
  fun st =>
    (.ok (), { st with
      revbuf := .mark :: st.revbuf,
      seen := match skeyOf x with
              | some k => (k, st.nextid) :: st.seen
              | none => st.seen,
      nextid := st.nextid + 1 })

/-- janet_v_push(st->seen_envs, env) (marsh.c 150). -/
def mark_env : MarshM Unit :=
  fun st => (.ok (), { st with revbuf := .markEnv :: st.revbuf,
                               seen_envs := st.seen_envs + 1 })

/-- janet_v_push(st->seen_defs, def) (marsh.c 184). -/
def mark_def : MarshM Unit :=
  fun st => (.ok (), { st with revbuf := .markDef :: st.revbuf,
                               seen_defs := st.seen_defs + 1 })

/-- janet_table_get(seen, x) (marsh.c 335): the id of an already-seen value. -/
def seenLookup (st : MarshalState) (x : Janet) : Option Nat :=
  match skeyOf x with
  | some k => (st.seen.find? (fun p => p.1 = k)).map (fun p => p.2)
  | none => none

/-- janet_table_get(st->rreg, x) restricted to symbol results (marsh.c
341-343): the registry name of a value, when the registry maps it to a
symbol. -/
def regLookup (st : MarshalState) (x : Janet) : Option (List Nat) :=
  match st.rreg with
  | some f => f x
  | none => none

/-- janet_func_addflags (marsh.c 164-170): the in-place flag update the
writer applies to every funcdef it marshals. -/
def janet_func_addflags (d : JanetFuncDef) : JanetFuncDef :=
  let f0 := d.flags
  let f1 := if d.name.isSome then orFlag f0 JANET_FUNCDEF_FLAG_HASNAME else f0
  let f2 := if d.source.isSome then orFlag f1 JANET_FUNCDEF_FLAG_HASSOURCE else f1
  let f3 := if !d.defs.isEmpty then orFlag f2 JANET_FUNCDEF_FLAG_HASDEFS else f2
  let f4 := if !d.environments.isEmpty then orFlag f3 JANET_FUNCDEF_FLAG_HASENVS else f3
  let f5 := if !d.sourcemap.isEmpty then orFlag f4 JANET_FUNCDEF_FLAG_HASSOURCEMAP else f4
  d.withFlags f5

/-- The in-place frame-flag update of marshal_one_fiber (marsh.c 251):
frame flags get HASENV when the frame carries an environment. -/
def janet_frame_addenvflag (f : JanetStackFrame) : JanetStackFrame :=
  match f with
  | .mk fl p pc fn env =>
    if env.isSome then .mk (orFlag fl JANET_STACKFRAME_HASENV) p pc fn env
    else .mk fl p pc fn env

/-- Sequence a writer action over a list (the writer's for loops). -/
def mlist (f : α → MarshM Unit) : List α → MarshM Unit
  | [] => pure ()
  | x :: xs => do
    f x
    mlist f xs

/-- The source-map delta emission loop (marsh.c 220-228); the subtractions
wrap in int32 as in C. -/
def smap_loop : Int → List (Int × Int) → MarshM Unit
  | _, [] => pure ()
  | current, se :: rest => do
    pushint (s32 (se.1 - current))
    pushint (s32 (se.2 - se.1))
    smap_loop se.2 rest

/-- The bytecode word emission (marsh.c 204-209), 4 bytes little-endian. -/
def push_bytecode_word (w : Nat) : MarshM Unit := do
  pushbyte (w &&& 0xFF)
  pushbyte ((w >>> 8) &&& 0xFF)
  pushbyte ((w >>> 16) &&& 0xFF)
  pushbyte ((w >>> 24) &&& 0xFF)

/-- The Int range [i, j) as a list (the C loop for k = i; k < j). -/
def intRange (i j : Int) : List Int :=
  (List.range (j - i).toNat).map (fun n => i + (n : Int))

/-- fiber->data[k] (reading the value stack; out-of-range reads are garbage
memory in C, nil here). -/
def fiberDataAt (f : JanetFiber) (k : Int) : Janet :=
  f.data.getD k.toNat .jnil

/-- The frame struct embedded at data + i - JANET_FRAME_SIZE (marsh.c 250),
looked up by its base offset i; none models reinterpreting non-frame memory. -/
def frameAt (f : JanetFiber) (i : Int) : Option JanetStackFrame :=
  (f.frames.find? (fun p => p.1 = i)).map (fun p => p.2)

mutual

/-- marshal_one_env (marsh.c 141-161).  The seen_envs identity scan is
modelled as always missing (no pointer identity between distinct tree
nodes); the push to seen_envs is the markEnv event. -/
def marshal_one_env : Nat → JanetFuncEnv → Int → MarshM Unit
  | 0, _, _ => janet_panic .fuel
  | fuel + 1, env, flags => do
    stackcheck flags
    mark_env
    pushint env.offset
    pushint env.length
    if env.offset ≠ 0 then
      match env.contents with
      | .fib f => marshal_one fuel (.jfiber f) (flags + 1)
      | .vals _ => janet_panic .ub
    else
      match env.contents with
      | .vals vs => mlist (fun v => marshal_one fuel v (flags + 1)) vs
      | .fib _ => janet_panic .ub

/-- marshal_one_def (marsh.c 173-229).  The seen_defs identity scan is
modelled as always missing; janet_func_addflags is applied to the def as in
C (the mutation of the reachable object is the subject of claim C3). -/
def marshal_one_def : Nat → JanetFuncDef → Int → MarshM Unit
  | 0, _, _ => janet_panic .fuel
  | fuel + 1, d0, flags => do
    stackcheck flags
    let d := janet_func_addflags d0
    mark_def
    pushint d.flags
    pushint d.slotcount
    pushint d.arity
    pushint (d.constants.length : Int)
    pushint (d.bytecode.length : Int)
    let _ ← (if flagTest d.flags JANET_FUNCDEF_FLAG_HASENVS then
      pushint (d.environments.length : Int)
    else pure ())
    let _ ← (if flagTest d.flags JANET_FUNCDEF_FLAG_HASDEFS then
      pushint (d.defs.length : Int)
    else pure ())
    let _ ← (match d.name with
     | some n => marshal_one fuel (.jstring n) flags
     | none =>
       if flagTest d.flags JANET_FUNCDEF_FLAG_HASNAME then janet_panic .ub
       else pure ())
    let _ ← (match d.source with
     | some s => marshal_one fuel (.jstring s) flags
     | none =>
       if flagTest d.flags JANET_FUNCDEF_FLAG_HASSOURCE then janet_panic .ub
       else pure ())
    mlist (fun c => marshal_one fuel c flags) d.constants
    mlist push_bytecode_word d.bytecode
    mlist (fun e => pushint e) d.environments
    mlist (fun sd => marshal_one_def fuel sd flags) d.defs
    if flagTest d.flags JANET_FUNCDEF_FLAG_HASSOURCEMAP then
      smap_loop 0 d.sourcemap
    else pure ()

/-- The frame walk of marshal_one_fiber (marsh.c 247-264): i is the current
frame base, j the slot one past the frame's stack values. -/
def marshal_fiber_frames : Nat → JanetFiber → Int → Int → Int → MarshM Unit
  | 0, _, _, _, _ => janet_panic .fuel
  | fuel + 1, fiber, i, j, flags => do
    if 0 < i then
      match frameAt fiber i with
      | none => janet_panic .ub
      | some frame0 => do
        let frame := janet_frame_addenvflag frame0
        match frame.func with
        | none => janet_panic .cStackFrame
        | some fn => do
          pushint frame.flags
          pushint frame.prevframe
          pushint frame.pc
          marshal_one fuel (.jfunction fn) (flags + 1)
          let _ ← (match frame.env with
           | some env => marshal_one_env fuel env (flags + 1)
           | none => pure ())
          mlist (fun k => marshal_one fuel (fiberDataAt fiber k) (flags + 1))
            (intRange i j)
          marshal_fiber_frames fuel fiber frame.prevframe (i - JANET_FRAME_SIZE) flags
    else pure ()

/-- marshal_one_fiber (marsh.c 235-267). -/
def marshal_one_fiber : Nat → JanetFiber → Int → MarshM Unit
  | 0, _, _ => janet_panic .fuel
  | fuel + 1, fiber, flags => do
    stackcheck flags
    let fflags := if fiber.child.isSome then orFlag fiber.flags JANET_FIBER_FLAG_HASCHILD
                  else fiber.flags
    let _ ← (if janet_fiber_status fiber = JANET_STATUS_ALIVE then
      janet_panic .aliveFiber
    else pure ())
    pushint fflags
    pushint fiber.frame
    pushint fiber.stackstart
    pushint fiber.stacktop
    pushint fiber.maxstack
    marshal_fiber_frames fuel fiber fiber.frame (fiber.stackstart - JANET_FRAME_SIZE) flags
    match fiber.child with
    | some c => marshal_one fuel (.jfiber c) (flags + 1)
    | none => pure ()

/-- marshal_one_abstract (marsh.c 292-305).  The registered marshal hook is
external; the bytes it emits travel with the value (mhook). -/
def marshal_one_abstract : Nat → List Nat → Int → Option (List Nat) → Int → MarshM Unit
  | 0, _, _, _, _ => janet_panic .fuel
  | fuel + 1, tyname, size, mhook, flags =>
    match mhook with
    | some hookBytes => do
      mark_seen (.jabstract tyname size mhook)
      pushbyte LB_ABSTRACT
      marshal_one fuel (.jkeyword tyname) (flags + 1)
      pushint size
      pushbytes hookBytes
    | none => janet_panic .unregisteredAbstract

/-- marshal_one (marsh.c 309-488). -/
def marshal_one : Nat → Janet → Int → MarshM Unit
  | 0, _, _ => janet_panic .fuel
  | fuel + 1, x, flags => do
    stackcheck flags
    match x with
    | .jnil => pushbyte (200 + 1)
    | .jfalse => pushbyte (200 + 2)
    | .jtrue => pushbyte (200 + 3)
    | .jint n => pushint n
    | _ => do
      let st ← XM.getState
      match seenLookup st x with
      | some id => do
        pushbyte LB_REFERENCE
        pushint (id : Int)
      | none =>
        match regLookup st x with
        | some regname => do
          mark_seen x
          pushbyte LB_REGISTRY
          pushint (regname.length : Int)
          pushbytes regname
        | none =>
          match x with
          | .jreal bytes => do
            pushbyte LB_REAL
            pushbytes bytes
            mark_seen x
          | .jstring s => do
            mark_seen x
            pushbyte LB_STRING
            pushint (s.length : Int)
            pushbytes s
          | .jsymbol s => do
            mark_seen x
            pushbyte LB_SYMBOL
            pushint (s.length : Int)
            pushbytes s
          | .jkeyword s => do
            mark_seen x
            pushbyte LB_KEYWORD
            pushint (s.length : Int)
            pushbytes s
          | .jbuffer b => do
            mark_seen x
            pushbyte LB_BUFFER
            pushint (b.length : Int)
            pushbytes b
          | .jarray xs => do
            mark_seen x
            pushbyte LB_ARRAY
            pushint (xs.length : Int)
            mlist (fun el => marshal_one fuel el (flags + 1)) xs
          | .jtuple flag xs => do
            pushbyte LB_TUPLE
            pushint (xs.length : Int)
            pushint flag
            mlist (fun el => marshal_one fuel el (flags + 1)) xs
            mark_seen x
          | .jtable proto kvs => do
            mark_seen x
            pushbyte (if proto.isSome then LB_TABLE_PROTO else LB_TABLE)
            pushint (kvs.length : Int)
            let _ ← (match proto with
             | some p => marshal_one fuel p (flags + 1)
             | none => pure ())
            mlist (fun kv => do
              marshal_one fuel kv.1 (flags + 1)
              marshal_one fuel kv.2 (flags + 1)) kvs
          | .jstruct kvs => do
            pushbyte LB_STRUCT
            pushint (kvs.length : Int)
            mlist (fun kv => do
              marshal_one fuel kv.1 (flags + 1)
              marshal_one fuel kv.2 (flags + 1)) kvs
            mark_seen x
          | .jabstract tyname size mhook =>
            marshal_one_abstract fuel tyname size mhook flags
          | .jfunction fn => do
            pushbyte LB_FUNCTION
            marshal_one_def fuel fn.fdef flags
            mark_seen x
            mlist (fun (i : Nat) =>
              match fn.envs.get? i with
              | some e => marshal_one_env fuel e (flags + 1)
              | none => janet_panic .ub)
              (List.range fn.fdef.environments.length)
          | .jfiber f => do
            mark_seen x
            pushbyte LB_FIBER
            marshal_one_fiber fuel f (flags + 1)
          | _ => janet_panic .noRegistryValue

end

/-- The initial writer state over a caller-supplied buffer and registry. -/
def initMarshalState (buf : List Nat) (rreg : Option (Janet → Option (List Nat))) :
    MarshalState :=
  { revbuf := (buf.map WEvent.b).reverse, seen := [], rreg := rreg,
    seen_envs := 0, seen_defs := 0, nextid := 0 }

/-- janet_marshal (marsh.c 490-507): fresh writer state over the given
buffer, then marshal_one. -/
def janet_marshal (fuel : Nat) (buf : List Nat) (x : Janet)
    (rreg : Option (Janet → Option (List Nat))) (flags : Int) :
    Except MarshErr Unit × MarshalState :=
  marshal_one fuel x flags (initMarshalState buf rreg)

/-- The buffer events in wire order. -/
def outputEvents (st : MarshalState) : List WEvent := st.revbuf.reverse

/-- The bytes of an event list (the real output buffer contents). -/
def bytesOf (es : List WEvent) : List Nat :=
  es.filterMap (fun e => match e with | .b x => some x | _ => none)

/-- The output buffer of a writer state, in wire order. -/
def outputBytes (st : MarshalState) : List Nat := bytesOf (outputEvents st)

/-! ## Reader state (UnmarshalState, marsh.c 509-517) -/

/-- Modelled from the spec (2, 6): a registered abstract type as the reader
sees it: its name and, when registered, its unmarshal hook, which builds the
decoded instance from the declared size (the hook and the registry are
external to this repository; janet_get_abstract_type is called by name). -/
structure JanetAbstractTypeU where
  tyname : List Nat
  unmarshalHook : Option (Int → Janet)

/-- The read-only context of the reader: the forward registry (st->reg,
an association list name-to-value), the abstract-type registry
(janet_get_abstract_type, keyed by the decoded key value), and the external
bytecode verifier janet_verify (modelled from the spec: it accepts, false,
or rejects, true, a funcdef; its definition is not under src/). -/
structure UCtx where
  reg : Option (List (List Nat × Janet))
  getabstract : Janet → Option JanetAbstractTypeU
  jverify : JanetFuncDef → Bool

/-- UnmarshalState (marsh.c 509-517): the lookup vector of decoded values
and the funcenv / funcdef lookup vectors. -/
structure UnmarshalState where
  lookup : List Janet
  lookup_envs : List JanetFuncEnv
  lookup_defs : List JanetFuncDef

abbrev UnM (α : Type) := XM UErr UnmarshalState α

def liftE (e : Except UErr α) : UnM α := fun st => (e, st)

/-- janet_array_push(&st->lookup, v) (the reader's reference commits). -/
def pushLookup (v : Janet) : UnM Unit :=
  fun st => (.ok (), { st with lookup := st.lookup ++ [v] })

/-- Replacing the placeholder at index i once an in-place-initialized object
is complete (C mutates the pushed object itself; see the header comment). -/
def setLookup (i : Nat) (v : Janet) : UnM Unit :=
  fun st => (.ok (), { st with lookup := st.lookup.set i v })

def pushLookupEnv (e : JanetFuncEnv) : UnM Unit :=
  fun st => (.ok (), { st with lookup_envs := st.lookup_envs ++ [e] })

def setLookupEnv (i : Nat) (e : JanetFuncEnv) : UnM Unit :=
  fun st => (.ok (), { st with lookup_envs := st.lookup_envs.set i e })

def pushLookupDef (d : JanetFuncDef) : UnM Unit :=
  fun st => (.ok (), { st with lookup_defs := st.lookup_defs ++ [d] })

def setLookupDef (i : Nat) (d : JanetFuncDef) : UnM Unit :=
  fun st => (.ok (), { st with lookup_defs := st.lookup_defs.set i d })

/-- Using a cursor returned by unmarshal_one: the NULL cursor (from an
abstract type without a decodable registration) would be dereferenced by C
(undefined behavior); here it is the nullData error. -/
def bindData : Option (List Nat) → UnM (List Nat)
  | some d => pure d
  | none => XM.throw .nullData

/-- readint (marsh.c 524-550) over the remaining input.  The 14-bit form's
sign extension ((v shifted left 18, wrapping in int32) arithmetically
shifted right 18) is written with the explicit 32-bit wrap; the 5-byte form
reassembles big-endian with the (int32_t) cast on the top byte. -/
def readint : List Nat → Except UErr (Int × List Nat)
  | [] => .error .eos
  | b :: rest =>
    if b < 128 then .ok ((b : Int), rest)
    else if b < 192 then
      match rest with
      | [] => .error .eos
      | b1 :: rest2 =>
        let v : Nat := ((b &&& 0x3F) <<< 8) + b1
        .ok (i32ofU32 ((v <<< 18) % 4294967296) >>> (18 : Nat), rest2)
    else if b = LB_INTEGER then
      match rest with
      | b1 :: b2 :: b3 :: b4 :: rest5 =>
        .ok (i32ofU32 (((b1 <<< 24) ||| (b2 <<< 16) ||| (b3 <<< 8) ||| b4) % 4294967296),
             rest5)
      | _ => .error .eos
    else .error .expectedInteger

/-- janet_asserttype (marsh.c 553-557). -/
def janet_asserttype (x : Janet) (t : Nat) : Except UErr Unit :=
  if janet_type x = t then .ok () else .error .badType

/-- The reader's element loops for embedded values (cursor threaded through
the given parser; each C iteration dereferences the returned cursor, so a
NULL cursor faults, here as nullData via bindData). -/
def read_seq (p : List Nat → UnM (Janet × Option (List Nat))) :
    Nat → List Nat → UnM (List Janet × List Nat)
  | 0, d => pure ([], d)
  | n + 1, d => do
    let (x, d2o) ← p d
    let d2 ← bindData d2o
    let (xs, d3) ← read_seq p n d2
    pure (x :: xs, d3)

/-- The reader's key-value loops (tables and structs, marsh.c 1092-1097 and
1115-1120). -/
def read_kvs (p : List Nat → UnM (Janet × Option (List Nat))) :
    Nat → List Nat → UnM (List (Janet × Janet) × List Nat)
  | 0, d => pure ([], d)
  | n + 1, d => do
    let (k, d2o) ← p d
    let d2 ← bindData d2o
    let (v, d3o) ← p d2
    let d3 ← bindData d3o
    let (kvs, d4) ← read_kvs p n d3
    pure ((k, v) :: kvs, d4)

/-- A loop of sub-parsers with a plain cursor (funcenvs of a function,
sub-defs of a def). -/
def read_listP (p : List Nat → UnM (α × List Nat)) :
    Nat → List Nat → UnM (List α × List Nat)
  | 0, d => pure ([], d)
  | n + 1, d => do
    let (x, d2) ← p d
    let (xs, d3) ← read_listP p n d2
    pure (x :: xs, d3)

/-- The environments-index loop of unmarshal_one_def (marsh.c 721-723). -/
def read_ints : Nat → List Nat → Except UErr (List Int × List Nat)
  | 0, d => .ok ([], d)
  | n + 1, d => do
    let (x, d2) ← readint d
    let (xs, d3) ← read_ints n d2
    .ok (x :: xs, d3)

/-- The bytecode word loop of unmarshal_one_def (marsh.c 704-712):
4 bytes little-endian per word; MARSH_EOS(st, data + 3) per word. -/
def read_bytecode : Nat → List Nat → Except UErr (List Nat × List Nat)
  | 0, d => .ok ([], d)
  | n + 1, d =>
    match d with
    | b0 :: b1 :: b2 :: b3 :: rest => do
      let w : Nat := b0 ||| (b1 <<< 8) ||| (b2 <<< 16) ||| (b3 <<< 24)
      let (ws, d2) ← read_bytecode n rest
      .ok (w :: ws, d2)
    | _ => .error .eos

/-- The source-map accumulation loop of unmarshal_one_def (marsh.c 744-755);
the additions wrap in int32 as in C. -/
def read_sourcemap : Int → Nat → List Nat → Except UErr (List (Int × Int) × List Nat)
  | _, 0, d => .ok ([], d)
  | current, n + 1, d => do
    let (a, d2) ← readint d
    let start := s32 (current + a)
    let (b, d3) ← readint d2
    let stop := s32 (start + b)
    let (rest, d4) ← read_sourcemap stop n d3
    .ok ((start, stop) :: rest, d4)

/-- Writing a decoded stack slice into the fiber data array at base
(fiber->data + i for i in [stack, stacktop), marsh.c 866-867). -/
def writeSlots (arr : List Janet) (base : Nat) (vals : List Janet) : List Janet :=
  match vals with
  | [] => arr
  | v :: vs => writeSlots (arr.set base v) (base + 1) vs

/-- A zeroed funcdef, as gcalloc plus the explicit zeroing of marsh.c
644-650 produce before the fields are filled. -/
def placeholderDef : JanetFuncDef := .mk 0 0 0 [] [] [] [] none none []

/-- A zeroed funcenv (length 0, offset 0, marsh.c 595-597). -/
def placeholderEnv : JanetFuncEnv := .mk 0 0 (.vals [])

/-- A zeroed fiber (marsh.c 778-786). -/
def placeholderFiber : JanetFiber := .mk 0 0 0 0 0 [] [] none

mutual

/-- unmarshal_one_env (marsh.c 582-626).  The fresh env is pushed before its
body is read; the aliasing through which decoding the on-stack fiber can
imprint the very env being built (marsh.c 607-611) is not representable on
trees: the checks are evaluated against the placeholder (offset and length
still 0) exactly as C evaluates them against the not-yet-written fields. -/
def unmarshal_one_env (C : UCtx) : Nat → List Nat → Int → UnM (JanetFuncEnv × List Nat)
  | 0, _, _ => XM.throw .fuel
  | fuel + 1, data, flags =>
    match data with
    | [] => XM.throw .eos
    | lead :: rest =>
      if lead = LB_FUNCENV_REF then do
        let (index, d2) ← liftE (readint rest)
        let st ← XM.getState
        if index < 0 ∨ (st.lookup_envs.length : Int) ≤ index then
          XM.throw .invalidEnvRef
        else
          pure (st.lookup_envs.getD index.toNat placeholderEnv, d2)
      else do
        let st ← XM.getState
        let idx := st.lookup_envs.length
        pushLookupEnv placeholderEnv
        let (offset, d1) ← liftE (readint data)
        let (length, d2) ← liftE (readint d1)
        if offset ≠ 0 then do
          let (fiberv, d3o) ← unmarshal_one C fuel d2 flags
          let d3 ← bindData d3o
          liftE (janet_asserttype fiberv 4)
          match fiberv with
          | .jfiber fb => do
            let st2 ← XM.getState
            let cur := st2.lookup_envs.getD idx placeholderEnv
            if cur.offset ≠ 0 ∧ cur.offset ≠ offset then XM.throw .funcenvOffset
            else if cur.length ≠ 0 ∧ cur.length ≠ length then XM.throw .funcenvLength
            else do
              let env : JanetFuncEnv := .mk offset length (.fib fb)
              setLookupEnv idx env
              pure (env, d3)
          | _ => XM.throw .badType
        else do
          let (values, d3) ← read_seq (fun dd => unmarshal_one C fuel dd flags)
            length.toNat d2
          let env : JanetFuncEnv := .mk offset length (.vals values)
          setLookupEnv idx env
          pure (env, d3)

/-- unmarshal_one_def (marsh.c 629-767).  The def is pushed (zeroed) before
its body; the final object replaces the placeholder. -/
def unmarshal_one_def (C : UCtx) : Nat → List Nat → Int → UnM (JanetFuncDef × List Nat)
  | 0, _, _ => XM.throw .fuel
  | fuel + 1, data, flags =>
    match data with
    | [] => XM.throw .eos
    | lead :: _ =>
      if lead = LB_FUNCDEF_REF then do
        let (index, d2) ← liftE (readint (data.drop 1))
        let st ← XM.getState
        if index < 0 ∨ (st.lookup_defs.length : Int) ≤ index then
          XM.throw .invalidDefRef
        else
          pure (st.lookup_defs.getD index.toNat placeholderDef, d2)
      else do
        let st ← XM.getState
        let idx := st.lookup_defs.length
        pushLookupDef placeholderDef
        let (dflags, d1) ← liftE (readint data)
        let (slotcount, d2) ← liftE (readint d1)
        let (arity, d3) ← liftE (readint d2)
        let (constants_length, d4) ← liftE (readint d3)
        let (bytecode_length, d5) ← liftE (readint d4)
        let (environments_length, d6) ←
          if flagTest dflags JANET_FUNCDEF_FLAG_HASENVS then liftE (readint d5)
          else pure ((0 : Int), d5)
        let (defs_length, d7) ←
          if flagTest dflags JANET_FUNCDEF_FLAG_HASDEFS then liftE (readint d6)
          else pure ((0 : Int), d6)
        let (name, d8) ←
          if flagTest dflags JANET_FUNCDEF_FLAG_HASNAME then do
            let (x, do8) ← unmarshal_one C fuel d7 (flags + 1)
            let dd ← bindData do8
            liftE (janet_asserttype x 6)
            match x with
            | .jstring s => pure (some s, dd)
            | _ => XM.throw .badType
          else pure ((none : Option (List Nat)), d7)
        let (source, d9) ←
          if flagTest dflags JANET_FUNCDEF_FLAG_HASSOURCE then do
            let (x, do9) ← unmarshal_one C fuel d8 (flags + 1)
            let dd ← bindData do9
            liftE (janet_asserttype x 6)
            match x with
            | .jstring s => pure (some s, dd)
            | _ => XM.throw .badType
          else pure ((none : Option (List Nat)), d8)
        let (constants, d10) ← read_seq (fun dd => unmarshal_one C fuel dd (flags + 1))
          constants_length.toNat d9
        let (bytecode, d11) ← liftE (read_bytecode bytecode_length.toNat d10)
        let (environments, d12) ←
          if flagTest dflags JANET_FUNCDEF_FLAG_HASENVS then
            liftE (read_ints environments_length.toNat d11)
          else pure (([] : List Int), d11)
        let (defs, d13) ←
          if flagTest dflags JANET_FUNCDEF_FLAG_HASDEFS then
            read_listP (fun dd => unmarshal_one_def C fuel dd (flags + 1))
              defs_length.toNat d12
          else pure (([] : List JanetFuncDef), d12)
        let (sourcemap, d14) ←
          if flagTest dflags JANET_FUNCDEF_FLAG_HASSOURCEMAP then
            liftE (read_sourcemap 0 bytecode_length.toNat d13)
          else pure (([] : List (Int × Int)), d13)
        let r : JanetFuncDef :=
          .mk dflags slotcount arity constants bytecode environments defs name source
            sourcemap
        if C.jverify r then XM.throw .invalidBytecode
        else do
          setLookupDef idx r
          pure (r, d14)

/-- The frame-reading loop of unmarshal_one_fiber (marsh.c 820-879).
Returns the filled data array, the frame structs keyed by base offset, the
final stack value (for the stack-less-than-zero check) and the cursor. -/
def read_fiber_frames (C : UCtx) :
    Nat → List Janet → List (Int × JanetStackFrame) → Int → Int → Int → List Nat →
    UnM (List Janet × List (Int × JanetStackFrame) × Int × List Nat)
  | 0, _, _, _, _, _, _ => XM.throw .fuel
  | fuel + 1, arr, frames, stack, stacktop, flags, d =>
    if 0 < stack then do
      let (frameflags, d1) ← liftE (readint d)
      let (prevframe, d2) ← liftE (readint d1)
      let (pcdiff, d3) ← liftE (readint d2)
      let (funcv, d4o) ← unmarshal_one C fuel d3 (flags + 1)
      let d4 ← bindData d4o
      liftE (janet_asserttype funcv 13)
      match funcv with
      | .jfunction fn => do
        let fdef := fn.fdef
        let (envOpt, frameflags2, d5) ←
          if flagTest frameflags JANET_STACKFRAME_HASENV then do
            let offset := stack
            let length := stacktop - stack
            let (env, d5) ← unmarshal_one_env C fuel d4 (flags + 1)
            if env.offset ≠ 0 ∧ env.offset ≠ offset then XM.throw .frameEnvOffset
            else if env.length ≠ 0 ∧ env.length ≠ length then XM.throw .frameEnvLength
            else
              pure (some (env.withOffsetLength offset length),
                    clearFlag frameflags JANET_STACKFRAME_HASENV, d5)
          else pure ((none : Option JanetFuncEnv), frameflags, d4)
        let expected_framesize := fdef.slotcount
        if expected_framesize ≠ stacktop - stack then XM.throw .frameSizeMismatch
        else if pcdiff < 0 ∨ (fdef.bytecode.length : Int) ≤ pcdiff then
          XM.throw .framePC
        else if stack < s32 (prevframe + JANET_FRAME_SIZE) then XM.throw .framePrevframe
        else if stack < JANET_FRAME_SIZE ∨ (arr.length : Int) < stack ∨
            (arr.length : Int) < stacktop then
          -- The frame struct lives at data[stack - FRAME_SIZE, stack) and the
          -- slots at data[stack, stacktop); C writes them without a bounds
          -- check, so an out-of-range base is an out-of-bounds write (UB).
          XM.throw .ub
        else do
          let (vals, d6) ← read_seq (fun dd => unmarshal_one C fuel dd (flags + 1))
            (stacktop - stack).toNat d5
          let arr2 := writeSlots arr stack.toNat vals
          let framep : JanetStackFrame := .mk frameflags2 prevframe pcdiff (some fn) envOpt
          read_fiber_frames C fuel arr2 ((stack, framep) :: frames) prevframe
            (stack - JANET_FRAME_SIZE) flags d6
      | _ => XM.throw .badType
    else pure (arr, frames, stack, d)

/-- unmarshal_one_fiber (marsh.c 771-897). -/
def unmarshal_one_fiber (C : UCtx) : Nat → List Nat → Int → UnM (JanetFiber × List Nat)
  | 0, _, _ => XM.throw .fuel
  | fuel + 1, data, flags => do
    let st ← XM.getState
    let idx := st.lookup.length
    pushLookup (.jfiber placeholderFiber)
    let (fflags, d1) ← liftE (readint data)
    let (frame, d2) ← liftE (readint d1)
    let (stackstart, d3) ← liftE (readint d2)
    let (stacktop, d4) ← liftE (readint d3)
    let (maxstack, d5) ← liftE (readint d4)
    if stackstart < s32 (frame + JANET_FRAME_SIZE) ∨ stacktop < stackstart ∨
        maxstack < stacktop then
      XM.throw .fiberStackSetup
    else if s32 (stacktop + 10) < 0 then
      -- capacity = stacktop + 10 wraps negative; malloc of the resulting
      -- huge size_t fails (marsh.c 811-815).
      XM.throw .oom
    else do
      let cap := (s32 (stacktop + 10)).toNat
      let arr0 := List.replicate cap Janet.jnil
      let (arr, frames, finalStack, d6) ← read_fiber_frames C fuel arr0 [] frame
        (stackstart - JANET_FRAME_SIZE) flags d5
      if finalStack < 0 then XM.throw .tooManyFrames
      else do
        let (fflags2, child, d7) ←
          if flagTest fflags JANET_FIBER_FLAG_HASCHILD then do
            let (childv, d7o) ← unmarshal_one C fuel d6 (flags + 1)
            let d7 ← bindData d7o
            liftE (janet_asserttype childv 4)
            match childv with
            | .jfiber cf =>
              pure (clearFlag fflags JANET_FIBER_FLAG_HASCHILD, some cf, d7)
            | _ => XM.throw .badType
          else pure (fflags, (none : Option JanetFiber), d6)
        let fiber : JanetFiber :=
          .mk fflags2 frame stackstart stacktop maxstack arr frames child
        setLookup idx (.jfiber fiber)
        pure (fiber, d7)

/-- unmarshal_one_abstract (marsh.c 932-945).  An unknown type name or a
registration without an unmarshal hook yields the NULL cursor, not an error;
when a hook exists the returned cursor is the one after the size varint (the
context cursor the hook advances is discarded, as in C). -/
def unmarshal_one_abstract (C : UCtx) :
    Nat → List Nat → Int → UnM (Janet × Option (List Nat))
  | 0, _, _ => XM.throw .fuel
  | fuel + 1, data, flags => do
    let (key, d2o) ← unmarshal_one C fuel data (flags + 1)
    match C.getabstract key with
    | none => pure (Janet.jnil, none)
    | some at_ =>
      match at_.unmarshalHook with
      | none => pure (Janet.jnil, none)
      | some hook => do
        let d2 ← bindData d2o
        let (size, d3) ← liftE (readint d2)
        pure (hook size, some d3)

/-- unmarshal_one (marsh.c 947-1132). -/
def unmarshal_one (C : UCtx) : Nat → List Nat → Int → UnM (Janet × Option (List Nat))
  | 0, _, _ => XM.throw .fuel
  | fuel + 1, data, flags => do
    if JANET_RECURSION_GUARD < (u32 flags &&& 0xFFFF) then XM.throw .stackOverflow
    else
      match data with
      | [] => XM.throw .eos
      | lead :: rest =>
        if lead < 200 then do
          let (n, d2) ← liftE (readint data)
          pure (Janet.jint n, some d2)
        else if lead = LB_NIL then pure (Janet.jnil, some rest)
        else if lead = LB_FALSE then pure (Janet.jfalse, some rest)
        else if lead = LB_TRUE then pure (Janet.jtrue, some rest)
        else if lead = LB_INTEGER then
          match rest with
          | b1 :: b2 :: b3 :: b4 :: rest5 =>
            pure (Janet.jint
              (i32ofU32 (((b1 <<< 24) ||| (b2 <<< 16) ||| (b3 <<< 8) ||| b4) % 4294967296)),
              some rest5)
          | _ => XM.throw .eos
        else if lead = LB_REAL then
          if rest.length ≤ 7 then XM.throw .eos
          else do
            let out := Janet.jreal (rest.take 8)
            pushLookup out
            pure (out, some (rest.drop 8))
        else if lead = LB_STRING ∨ lead = LB_SYMBOL ∨ lead = LB_BUFFER ∨
            lead = LB_KEYWORD ∨ lead = LB_REGISTRY then do
          let (len, d2) ← liftE (readint rest)
          if (d2.length : Int) < len then XM.throw .eos
          else do
            let content := d2.take len.toNat
            let out ←
              if lead = LB_STRING then pure (Janet.jstring content)
              else if lead = LB_SYMBOL then pure (Janet.jsymbol content)
              else if lead = LB_KEYWORD then pure (Janet.jkeyword content)
              else if lead = LB_REGISTRY then
                match C.reg with
                | some regtable =>
                  pure (((regtable.find? (fun p => p.1 = content)).map
                    (fun p => p.2)).getD Janet.jnil)
                | none => pure Janet.jnil
              else pure (Janet.jbuffer content)
            pushLookup out
            pure (out, some (d2.drop len.toNat))
        else if lead = LB_FIBER then do
          let (fib, d2) ← unmarshal_one_fiber C fuel rest flags
          pure (Janet.jfiber fib, some d2)
        else if lead = LB_FUNCTION then do
          let (fdef, d2) ← unmarshal_one_def C fuel rest (flags + 1)
          let st ← XM.getState
          let idx := st.lookup.length
          pushLookup (Janet.jfunction (.mk fdef []))
          let (envs, d3) ← read_listP (fun dd => unmarshal_one_env C fuel dd (flags + 1))
            fdef.environments.length d2
          let fn := Janet.jfunction (.mk fdef envs)
          setLookup idx fn
          pure (fn, some d3)
        else if lead = LB_ABSTRACT then
          unmarshal_one_abstract C fuel rest flags
        else if lead = LB_REFERENCE ∨ lead = LB_ARRAY ∨ lead = LB_TUPLE ∨
            lead = LB_STRUCT ∨ lead = LB_TABLE ∨ lead = LB_TABLE_PROTO then do
          let (len, d2) ← liftE (readint rest)
          if lead = LB_ARRAY then do
            let st ← XM.getState
            let idx := st.lookup.length
            pushLookup (Janet.jarray [])
            let (xs, d3) ← read_seq (fun dd => unmarshal_one C fuel dd (flags + 1))
              len.toNat d2
            let out := Janet.jarray xs
            setLookup idx out
            pure (out, some d3)
          else if lead = LB_TUPLE then do
            let (flag, d3) ← liftE (readint d2)
            let (xs, d4) ← read_seq (fun dd => unmarshal_one C fuel dd (flags + 1))
              len.toNat d3
            let out := Janet.jtuple flag xs
            pushLookup out
            pure (out, some d4)
          else if lead = LB_STRUCT then do
            let (kvs, d3) ← read_kvs (fun dd => unmarshal_one C fuel dd (flags + 1))
              len.toNat d2
            let out := Janet.jstruct kvs
            pushLookup out
            pure (out, some d3)
          else if lead = LB_REFERENCE then do
            let st ← XM.getState
            if len < 0 ∨ (st.lookup.length : Int) ≤ len then XM.throw .invalidReference
            else pure (st.lookup.getD len.toNat Janet.jnil, some d2)
          else do
            let st ← XM.getState
            let idx := st.lookup.length
            pushLookup (Janet.jtable none [])
            let (proto, d3) ←
              if lead = LB_TABLE_PROTO then do
                let (protov, d3o) ← unmarshal_one C fuel d2 (flags + 1)
                let d3 ← bindData d3o
                liftE (janet_asserttype protov 11)
                pure (some protov, d3)
              else pure ((none : Option Janet), d2)
            let (kvs, d4) ← read_kvs (fun dd => unmarshal_one C fuel dd (flags + 1))
              len.toNat d3
            let out := Janet.jtable proto kvs
            setLookup idx out
            pure (out, some d4)
        else XM.throw .unknownByte

end

/-- janet_unmarshal (marsh.c 1134-1157): fresh reader state, then
unmarshal_one; returns the decoded value and the next cursor. -/
def janet_unmarshal (C : UCtx) (fuel : Nat) (bytes : List Nat) (flags : Int) :
    Except UErr (Janet × Option (List Nat)) :=
  (unmarshal_one C fuel bytes flags
    { lookup := [], lookup_envs := [], lookup_defs := [] }).1

/-! ## The big-endian LB_REAL read path (marsh.c 986-995) -/

/-- The sequence of byte assignments of the big-endian LB_REAL reader
(marsh.c 988-995), transcribed in order: u is the union's 8 bytes before the
reads (whatever u.d left there), d is the record with d[0] the LB_REAL lead
byte and d[1]..d[8] the payload.  Note the source writes index 5 twice and
index 3 never. -/
def be_real_read (u : List Nat) (d : List Nat) : List Nat :=
  let u := u.set 0 (d.getD 8 0)
  let u := u.set 1 (d.getD 7 0)
  let u := u.set 2 (d.getD 6 0)
  let u := u.set 5 (d.getD 5 0)
  let u := u.set 4 (d.getD 4 0)
  let u := u.set 5 (d.getD 3 0)
  let u := u.set 6 (d.getD 2 0)
  let u := u.set 7 (d.getD 1 0)
  u

/-- The full byte reversal the spec mandates for the big-endian read:
out[i] = payload[7 - i], with d indexed as in be_real_read (payload byte i
is d[i + 1]). -/
def be_real_read_spec (d : List Nat) : List Nat :=
  (List.range 8).map (fun i => d.getD (8 - i) 0)

/-! ## Concrete objects used by the theorems -/

/-- A fiber whose status bits hold JANET_STATUS_ALIVE. -/
def aliveFiber0 : JanetFiber := .mk (15 * 2 ^ 20) 0 4 4 4 [] [] none

/-- A dead fiber (status bits 0). -/
def deadFiber0 : JanetFiber := .mk 0 0 4 4 4 [] [] none

/-- A reader context with no registry, no abstract types, and a verifier
that accepts everything. -/
def emptyUCtx : UCtx :=
  { reg := none, getabstract := fun _ => none, jverify := fun _ => false }

/-- A fresh reader state (janet_unmarshal, marsh.c 1140-1146). -/
def initUnmarshalState : UnmarshalState :=
  { lookup := [], lookup_envs := [], lookup_defs := [] }

/-- A reverse registry mapping the number 42 to the symbol s. -/
def reg42 : Janet → Option (List Nat) :=
  fun v => match v with
  | .jint 42 => some [115]
  | _ => none

/-- The value kinds the writer handles in its first switch without ever
consulting the seen table or the registry (marsh.c 313-330): nil, false,
true, and numbers in the integer fast path. -/
def primFastPath : Janet → Bool
  | .jnil | .jfalse | .jtrue | .jint _ => true
  | _ => false

/-- A one-word funcdef with one captured environment index. -/
def defWithEnv : JanetFuncDef := .mk 0 0 0 [] [3] [0] [] none none []

/-- A function carrying one (empty, off-stack) environment. -/
def fnWithEnv : JanetFunction := .mk defWithEnv [.mk 0 0 (.vals [])]

/-!
# Theorems

Helper lemmas first, then the claim theorems.
-/

lemma shiftLeft_lor_eq_add (a : Nat) {b k : Nat} (hb : b < 2 ^ k) :
    (a <<< k) ||| b = a <<< k + b := by
  apply Nat.eq_of_testBit_eq
  intro i
  rw [Nat.testBit_or, Nat.testBit_shiftLeft, Nat.shiftLeft_eq]
  by_cases hik : k ≤ i
  · have hbi : b.testBit i = false :=
      Nat.testBit_lt_two_pow (lt_of_lt_of_le hb (Nat.pow_le_pow_right (by omega) hik))
    rw [hbi]
    simp only [ge_iff_le, hik, decide_True, Bool.true_and, Bool.or_false]
    rw [Nat.testBit_to_div_mod, Nat.testBit_to_div_mod]
    congr 2
    obtain ⟨j, rfl⟩ := Nat.exists_eq_add_of_le hik
    have h2 : (2:Nat) ^ (k + j) = 2 ^ k * 2 ^ j := by rw [pow_add]
    have h3 : a * 2 ^ k + b = 2 ^ k * a + b := by ring
    rw [h2, ← Nat.div_div_eq_div_mul, h3,
      Nat.mul_add_div (Nat.pos_pow_of_pos k (by omega)),
      Nat.div_eq_of_lt hb, Nat.add_zero, Nat.add_sub_cancel_left]
  · simp only [ge_iff_le, hik, decide_False, Bool.false_and, Bool.false_or]
    rw [Nat.testBit_to_div_mod, Nat.testBit_to_div_mod]
    congr 2
    have hki : i < k := by omega
    have hsp : (2:Nat) ^ k = 2 ^ i * 2 ^ (k - i) := by
      rw [← pow_add]; congr 1; omega
    have h1 : a * 2 ^ k + b = 2 ^ i * (a * 2 ^ (k - i)) + b := by rw [hsp]; ring
    rw [h1, Nat.mul_add_div (Nat.pos_pow_of_pos i (by omega))]
    have h2 : (2:Nat) ^ (k - i) = 2 * 2 ^ (k - i - 1) := by
      rw [← pow_succ']
      congr 1
      omega
    have h4 : a * (2 * 2 ^ (k - i - 1)) = 2 * (a * 2 ^ (k - i - 1)) := by ring
    rw [h2, h4]
    omega



lemma natAnd_255 (n : Nat) : n &&& 255 = n % 256 := by
  have h := Nat.and_pow_two_sub_one_eq_mod n 8
  norm_num at h
  exact h

lemma natAnd_63 (n : Nat) : n &&& 63 = n % 64 := by
  have h := Nat.and_pow_two_sub_one_eq_mod n 6
  norm_num at h
  exact h

lemma shr8 (n : Nat) : n >>> 8 = n / 256 := by
  have h := Nat.shiftRight_eq_div_pow n 8
  norm_num at h
  exact h

lemma shr16 (n : Nat) : n >>> 16 = n / 65536 := by
  have h := Nat.shiftRight_eq_div_pow n 16
  norm_num at h
  exact h

lemma shr24 (n : Nat) : n >>> 24 = n / 16777216 := by
  have h := Nat.shiftRight_eq_div_pow n 24
  norm_num at h
  exact h

lemma lor128 {c : Nat} (hc : c < 128) : c ||| 128 = c + 128 := by
  rw [Nat.lor_comm]
  have h : (128 : Nat) = 1 <<< 7 := rfl
  rw [h, shiftLeft_lor_eq_add 1 (by omega : c < 2 ^ 7)]
  rw [Nat.shiftLeft_eq]
  omega

lemma u32_int (x : Int) (hlo : -4294967296 ≤ x) (hhi : x < 4294967296) :
    (u32 x : Int) = if 0 ≤ x then x else x + 4294967296 := by
  simp only [u32]
  split <;> omega

lemma u32_lt (x : Int) : u32 x < 4294967296 := by
  simp only [u32]
  omega

/-- The 14-bit sign extension of readint: shifting left 18 with int32 wrap
then arithmetically right 18. -/
lemma sext14 (v : Nat) (hv : v < 16384) :
    i32ofU32 ((v <<< 18) % 4294967296) >>> (18 : Nat) =
      if v < 8192 then (v : Int) else (v : Int) - 16384 := by
  rw [Nat.shiftLeft_eq]
  have hp : (2:Nat) ^ 18 = 262144 := by norm_num
  have hsm : v * 2 ^ 18 % 4294967296 = v * 2 ^ 18 := by
    rw [hp]
    omega
  rw [hsm]
  simp only [i32ofU32]
  by_cases h : v < 8192
  · have hlt : v * 2 ^ 18 < 2147483648 := by rw [hp]; omega
    rw [if_pos hlt, if_pos h, Int.shiftRight_eq_div_pow]
    have hc : ((v * 2 ^ 18 : Nat) : Int) = (v : Int) * 2 ^ 18 := by push_cast; ring
    rw [hc]
    norm_num
  · have hge : ¬ (v * 2 ^ 18 < 2147483648) := by rw [hp]; omega
    rw [if_neg hge, if_neg h, Int.shiftRight_eq_div_pow]
    have heq : ((v * 2 ^ 18 : Nat) : Int) - 4294967296 = ((v : Int) - 16384) * 2 ^ 18 := by
      push_cast
      ring
    rw [heq]
    norm_num



theorem readint_pushintBytes (x : Int) (hlo : -2147483648 ≤ x) (hhi : x < 2147483648)
    (rest : List Nat) : readint (pushintBytes x ++ rest) = .ok (x, rest) := by
  have hu := u32_int x (by omega) (by omega)
  have hul := u32_lt x
  by_cases h1 : 0 ≤ x ∧ x < 128
  · have hb : x.toNat < 128 := by omega
    simp only [pushintBytes, if_pos h1, List.cons_append, List.nil_append, readint,
      if_pos hb]
    have hx : ((x.toNat : Nat) : Int) = x := by omega
    rw [hx]
  · by_cases h2 : x ≤ 8191 ∧ -8192 ≤ x
    · simp only [pushintBytes, if_neg h1, if_pos h2, List.cons_append, List.nil_append]
      have hc64 : (u32 x >>> 8) &&& 63 < 64 := by rw [natAnd_63]; omega
      have hb0 : ((u32 x >>> 8) &&& 63) ||| 128 = (u32 x / 256) % 64 + 128 := by
        rw [lor128 (by omega), shr8, natAnd_63]
      rw [hb0]
      have hblo : ¬ ((u32 x / 256) % 64 + 128 < 128) := by omega
      have hbhi : (u32 x / 256) % 64 + 128 < 192 := by omega
      simp only [readint, if_neg hblo, if_pos hbhi]
      have hand : ((u32 x / 256) % 64 + 128) &&& 63 = (u32 x / 256) % 64 := by
        rw [natAnd_63]
        omega
      rw [hand, natAnd_255]
      set v : Nat := ((u32 x / 256) % 64) <<< 8 + u32 x % 256 with hv
      have hvval : v = (u32 x / 256) % 64 * 256 + u32 x % 256 := by
        rw [hv, Nat.shiftLeft_eq]
      have hv16 : v < 16384 := by omega
      rw [sext14 v hv16]
      by_cases hpos : 0 ≤ x
      · have hnx : (u32 x : Int) = x := by rw [hu, if_pos hpos]
        have hxlt : u32 x < 8192 := by omega
        have hvn : v = u32 x := by omega
        have hvlt : v < 8192 := by omega
        rw [if_pos hvlt]
        have : (v : Int) = x := by omega
        rw [this]
      · have hnx : (u32 x : Int) = x + 4294967296 := by rw [hu, if_neg hpos]
        have hnlo : 4294958104 ≤ u32 x := by omega
        have hvx : (v : Int) = x + 16384 := by omega
        have hvge : ¬ (v < 8192) := by omega
        rw [if_neg hvge]
        have : (v : Int) - 16384 = x := by omega
        rw [this]
    · simp only [pushintBytes, if_neg h1, if_neg h2, List.cons_append, List.nil_append]
      have h205 : ¬ ((205 : Nat) < 128) := by omega
      have h205b : ¬ ((205 : Nat) < 192) := by omega
      have h205c : (205 : Nat) = LB_INTEGER := rfl
      simp only [readint, LB_INTEGER, if_neg h205, if_neg h205b, if_pos rfl]
      have b1lt : (u32 x >>> 24) &&& 255 < 256 := by rw [natAnd_255]; omega
      have b2lt : (u32 x >>> 16) &&& 255 < 256 := by rw [natAnd_255]; omega
      have b3lt : (u32 x >>> 8) &&& 255 < 256 := by rw [natAnd_255]; omega
      have b4lt : u32 x &&& 255 < 256 := by rw [natAnd_255]; omega
      have mulP : ∀ (a : Nat) {b k : Nat}, b < 2 ^ k → (a * 2 ^ k) ||| b = a * 2 ^ k + b := by
        intro a b k hb
        rw [← Nat.shiftLeft_eq]
        exact shiftLeft_lor_eq_add a hb
      have hm : ((u32 x >>> 24 &&& 255) <<< 24) ||| ((u32 x >>> 16 &&& 255) <<< 16) |||
          ((u32 x >>> 8 &&& 255) <<< 8) ||| (u32 x &&& 255) = u32 x := by
        simp only [Nat.shiftLeft_eq, Nat.lor_assoc]
        rw [mulP _ (by omega : u32 x &&& 255 < 2 ^ 8)]
        rw [mulP _ (by norm_num; omega :
          (u32 x >>> 8 &&& 255) * 2 ^ 8 + (u32 x &&& 255) < 2 ^ 16)]
        rw [mulP _ (by norm_num; omega :
          (u32 x >>> 16 &&& 255) * 2 ^ 16 +
            ((u32 x >>> 8 &&& 255) * 2 ^ 8 + (u32 x &&& 255)) < 2 ^ 24)]
        simp only [natAnd_255, shr8, shr16, shr24]
        norm_num
        omega
      rw [hm]
      have hnm : u32 x % 4294967296 = u32 x := by omega
      rw [hnm]
      simp only [i32ofU32]
      by_cases hpos : 0 ≤ x
      · have hnx : (u32 x : Int) = x := by rw [hu, if_pos hpos]
        have hlt2 : u32 x < 2147483648 := by omega
        rw [if_pos hlt2, hnx]
        simp
      · have hnx : (u32 x : Int) = x + 4294967296 := by rw [hu, if_neg hpos]
        have hge2 : ¬ (u32 x < 2147483648) := by omega
        rw [if_neg hge2]
        have : (u32 x : Int) - 4294967296 = x := by omega
        rw [this]
        simp


/-! ## Claim C2: the varint codec -/

/-- C2: for every signed 32-bit integer x, pushint emits x as 1 byte when
0 <= x < 128, as the 2 bytes of the 14-bit form when -8192 <= x <= 8191
(excluding the 1-byte range), and otherwise as the byte 205 (LB_INTEGER)
followed by 4 big-endian bytes; and readint applied to exactly those bytes
returns x and consumes exactly the bytes written (so in particular every
int32, including -8193, -8192, -1, 0, 127, 128, 8191, 8192, 2^31 - 1 and
-2^31, round-trips). -/
theorem claim_C2_varint_codec (x : Int) (hlo : -2147483648 ≤ x) (hhi : x < 2147483648) :
    ((0 ≤ x ∧ x < 128) → pushintBytes x = [x.toNat]) ∧
    (¬(0 ≤ x ∧ x < 128) → -8192 ≤ x → x ≤ 8191 →
      pushintBytes x = [((u32 x >>> 8) &&& 0x3F) ||| 0x80, u32 x &&& 0xFF]) ∧
    (¬(-8192 ≤ x ∧ x ≤ 8191) →
      pushintBytes x = [205, (u32 x >>> 24) &&& 0xFF, (u32 x >>> 16) &&& 0xFF,
        (u32 x >>> 8) &&& 0xFF, u32 x &&& 0xFF]) ∧
    (∀ rest : List Nat, readint (pushintBytes x ++ rest) = .ok (x, rest)) := by
  refine ⟨fun h1 => ?_, fun h1 hlo2 hhi2 => ?_, fun h2 => ?_, ?_⟩
  · simp [pushintBytes, h1]
  · simp only [pushintBytes, if_neg h1, if_pos (⟨hhi2, hlo2⟩ : x ≤ 8191 ∧ -8192 ≤ x)]
  · have h1 : ¬ (0 ≤ x ∧ x < 128) := by omega
    have h2b : ¬ (x ≤ 8191 ∧ -8192 ≤ x) := by omega
    simp only [pushintBytes, if_neg h1, if_neg h2b, LB_INTEGER]
  · exact readint_pushintBytes x hlo hhi

/-- Witness for C2 at the boundary values -8193 (5-byte form) and 8191
(2-byte form), with a nonempty tail to see the exact consumption. -/
theorem claim_C2_varint_codec_witness :
    readint (pushintBytes (-8193) ++ [9]) = .ok (-8193, [9]) ∧
    readint (pushintBytes 8191 ++ [9]) = .ok (8191, [9]) ∧
    readint (pushintBytes (-2147483648) ++ []) = .ok (-2147483648, []) :=
  ⟨(claim_C2_varint_codec (-8193) (by norm_num) (by norm_num)).2.2.2 [9],
   (claim_C2_varint_codec 8191 (by norm_num) (by norm_num)).2.2.2 [9],
   (claim_C2_varint_codec (-2147483648) (by norm_num) (by norm_num)).2.2.2 []⟩

/-! ## Claim C3: what the writer mutates -/

/-- C3 counterexample: the writer does not leave every reachable object
unchanged.  marshal_one_def applies janet_func_addflags to the function
definition in place (marsh.c 182, 164-170), and marshal_one_fiber sets the
HASENV bit on the stack frame's flags in place (marsh.c 251): both updates
change the flags field of a reachable object, exhibited here on a def with a
name but no HASNAME bit, and on a frame with an env but no HASENV bit. -/
theorem claim_C3_writer_mutates_counterexample :
    (janet_func_addflags (.mk 0 0 0 [] [] [] [] (some [97]) none [])).flags ≠
      (JanetFuncDef.mk 0 0 0 [] [] [] [] (some [97]) none []).flags ∧
    (janet_frame_addenvflag (.mk 0 0 0 none (some (.mk 0 0 (.vals []))))).flags ≠
      (JanetStackFrame.mk 0 0 0 none (some (.mk 0 0 (.vals [])))).flags := by
  constructor
  · show (524288 : Int) ≠ 0
    decide
  · show (1073741824 : Int) ≠ 0
    decide

/-- C3 amended: the writer mutates only its private state, the output buffer,
and the flags words of reachable function definitions and fiber stack frames
(janet_func_addflags OR-ing in the presence bits, marshal_one_fiber OR-ing in
HASENV); every other field of those objects is unchanged: overwriting the
updated flags with the old value restores the object exactly. -/
theorem claim_C3_writer_mutates_amended (d : JanetFuncDef) (f : JanetStackFrame) :
    (janet_func_addflags d).withFlags d.flags = d ∧
    (janet_frame_addenvflag f).prevframe = f.prevframe ∧
    (janet_frame_addenvflag f).pc = f.pc ∧
    (janet_frame_addenvflag f).func = f.func ∧
    (janet_frame_addenvflag f).env = f.env ∧
    ((janet_frame_addenvflag f).flags = f.flags ∨
     (janet_frame_addenvflag f).flags = orFlag f.flags JANET_STACKFRAME_HASENV) := by
  constructor
  · match d with
    | .mk fl s a c b e ds n src m =>
      simp [janet_func_addflags, JanetFuncDef.withFlags, JanetFuncDef.flags,
        JanetFuncDef.name, JanetFuncDef.source, JanetFuncDef.defs,
        JanetFuncDef.environments, JanetFuncDef.sourcemap]
  · match f with
    | .mk fl p pc fn env =>
      simp only [janet_frame_addenvflag]
      by_cases h : env.isSome <;>
        simp [h, JanetStackFrame.prevframe, JanetStackFrame.pc, JanetStackFrame.func,
          JanetStackFrame.env, JanetStackFrame.flags]

/-! ## Claim C5: the big-endian LB_REAL read path -/

/-- C5: the big-endian LB_REAL reader does not perform the full reversal
out[i] = payload[7 - i] the spec mandates: marsh.c 991-993 assigns
u.bytes[5] twice (first from data[5], then from data[3]) and never assigns
u.bytes[3], which keeps whatever the union held.  On payload bytes 1..8 over
a zeroed union, the code yields output byte 3 = 0 where the spec's reversal
yields 5, so the decoded double differs from the encoded one. -/
theorem claim_C5_bigendian_real_bug :
    be_real_read [0, 0, 0, 0, 0, 0, 0, 0] [200, 1, 2, 3, 4, 5, 6, 7, 8] =
      [8, 7, 6, 0, 4, 3, 2, 1] ∧
    be_real_read_spec [200, 1, 2, 3, 4, 5, 6, 7, 8] = [8, 7, 6, 5, 4, 3, 2, 1] ∧
    be_real_read [0, 0, 0, 0, 0, 0, 0, 0] [200, 1, 2, 3, 4, 5, 6, 7, 8] ≠
      be_real_read_spec [200, 1, 2, 3, 4, 5, 6, 7, 8] := by
  refine ⟨rfl, rfl, ?_⟩
  decide


/-! ### Buffer monotonicity of the writer -/

/-- A writer computation only appends to the output buffer. -/
def Appends (m : MarshM α) : Prop :=
  ∀ st, ∃ t, ((m st).2).revbuf = t ++ st.revbuf

lemma appends_pure (a : α) : Appends (pure (f := MarshM) a) :=
  fun st => ⟨[], rfl⟩

lemma appends_throw (e : MarshErr) : Appends (janet_panic (α := α) e) :=
  fun st => ⟨[], rfl⟩

lemma appends_getState : Appends XM.getState :=
  fun st => ⟨[], rfl⟩

lemma XM.bind_def (m : XM ε σ α) (f : α → XM ε σ β) (st : σ) :
    (m >>= f) st = match m st with
      | (.ok a, st1) => f a st1
      | (.error e, st1) => (.error e, st1) := rfl

lemma appends_bind {m : MarshM α} {f : α → MarshM β}
    (hm : Appends m) (hf : ∀ a, Appends (f a)) : Appends (m >>= f) := by
  intro st
  obtain ⟨t1, ht1⟩ := hm st
  rw [XM.bind_def]
  rcases hrun : m st with ⟨r, st1⟩
  rw [hrun] at ht1
  rcases r with e | a
  · exact ⟨t1, by simpa using ht1⟩
  · obtain ⟨t2, ht2⟩ := hf a st1
    refine ⟨t2 ++ t1, ?_⟩
    simp only [ht2, List.append_assoc]
    simp only [show st1.revbuf = t1 ++ st.revbuf from ht1]


lemma appends_pushbyte (x : Nat) : Appends (pushbyte x) :=
  fun st => ⟨[.b x], rfl⟩

lemma appends_pushbytes (bs : List Nat) : Appends (pushbytes bs) :=
  fun st => ⟨(bs.map WEvent.b).reverse, rfl⟩

lemma appends_pushint (x : Int) : Appends (pushint x) :=
  appends_pushbytes _

lemma appends_mark_seen (x : Janet) : Appends (mark_seen x) :=
  fun st => ⟨[.mark], rfl⟩

lemma appends_mark_env : Appends mark_env :=
  fun st => ⟨[.markEnv], rfl⟩

lemma appends_mark_def : Appends mark_def :=
  fun st => ⟨[.markDef], rfl⟩

lemma appends_stackcheck (flags : Int) : Appends (stackcheck flags) := by
  unfold stackcheck
  split
  · exact appends_throw _
  · exact appends_pure _

lemma appends_ite {c : Prop} [Decidable c] {m1 m2 : MarshM α}
    (h1 : Appends m1) (h2 : Appends m2) : Appends (if c then m1 else m2) := by
  split
  · exact h1
  · exact h2

lemma appends_mlist {f : α → MarshM Unit} (hf : ∀ x, Appends (f x)) :
    ∀ xs : List α, Appends (mlist f xs)
  | [] => appends_pure _
  | x :: xs => by
    show Appends (f x >>= fun _ => mlist f xs)
    exact appends_bind (hf x) (fun _ => appends_mlist hf xs)

lemma appends_smap_loop : ∀ (c : Int) (l : List (Int × Int)), Appends (smap_loop c l)
  | _, [] => appends_pure _
  | c, se :: rest => by
    show Appends (pushint _ >>= fun _ => pushint _ >>= fun _ => smap_loop se.2 rest)
    exact appends_bind (appends_pushint _) (fun _ =>
      appends_bind (appends_pushint _) (fun _ => appends_smap_loop se.2 rest))

lemma appends_push_bytecode_word (w : Nat) : Appends (push_bytecode_word w) := by
  unfold push_bytecode_word
  exact appends_bind (appends_pushbyte _) (fun _ =>
    appends_bind (appends_pushbyte _) (fun _ =>
      appends_bind (appends_pushbyte _) (fun _ => appends_pushbyte _)))


/-- Every writer function only appends to the output buffer, at any fuel,
whether it succeeds or fails. -/
theorem appends_marshal : ∀ n : Nat,
    (∀ x fl, Appends (marshal_one n x fl)) ∧
    (∀ d fl, Appends (marshal_one_def n d fl)) ∧
    (∀ e fl, Appends (marshal_one_env n e fl)) ∧
    (∀ fb fl, Appends (marshal_one_fiber n fb fl)) ∧
    (∀ fb i j fl, Appends (marshal_fiber_frames n fb i j fl)) ∧
    (∀ t sz h fl, Appends (marshal_one_abstract n t sz h fl)) := by
  intro n
  induction n with
  | zero =>
    exact ⟨fun _ _ => appends_throw _, fun _ _ => appends_throw _,
      fun _ _ => appends_throw _, fun _ _ => appends_throw _,
      fun _ _ _ _ => appends_throw _, fun _ _ _ _ => appends_throw _⟩
  | succ n ih =>
    obtain ⟨ih1, ih2, ih3, ih4, ih5, ih6⟩ := ih
    refine ⟨?_, ?_, ?_, ?_, ?_, ?_⟩
    · intro x fl
      simp only [marshal_one]
      apply appends_bind (appends_stackcheck _)
      intro _
      cases x with
      | jnil => exact appends_pushbyte _
      | jfalse => exact appends_pushbyte _
      | jtrue => exact appends_pushbyte _
      | jint v => exact appends_pushint _
      | jreal bs =>
        apply appends_bind appends_getState
        intro st
        cases seenLookup st (.jreal bs) with
        | some id => exact appends_bind (appends_pushbyte _) fun _ => appends_pushint _
        | none =>
          cases regLookup st (.jreal bs) with
          | some nm =>
            exact appends_bind (appends_mark_seen _) fun _ =>
              appends_bind (appends_pushbyte _) fun _ =>
              appends_bind (appends_pushint _) fun _ => appends_pushbytes _
          | none =>
            exact appends_bind (appends_pushbyte _) fun _ =>
              appends_bind (appends_pushbytes _) fun _ => appends_mark_seen _
      | jstring sv =>
        apply appends_bind appends_getState
        intro st
        cases seenLookup st (.jstring sv) with
        | some id => exact appends_bind (appends_pushbyte _) fun _ => appends_pushint _
        | none =>
          cases regLookup st (.jstring sv) with
          | some nm =>
            exact appends_bind (appends_mark_seen _) fun _ =>
              appends_bind (appends_pushbyte _) fun _ =>
              appends_bind (appends_pushint _) fun _ => appends_pushbytes _
          | none =>
            exact appends_bind (appends_mark_seen _) fun _ =>
              appends_bind (appends_pushbyte _) fun _ =>
              appends_bind (appends_pushint _) fun _ => appends_pushbytes _
      | jsymbol sv =>
        apply appends_bind appends_getState
        intro st
        cases seenLookup st (.jsymbol sv) with
        | some id => exact appends_bind (appends_pushbyte _) fun _ => appends_pushint _
        | none =>
          cases regLookup st (.jsymbol sv) with
          | some nm =>
            exact appends_bind (appends_mark_seen _) fun _ =>
              appends_bind (appends_pushbyte _) fun _ =>
              appends_bind (appends_pushint _) fun _ => appends_pushbytes _
          | none =>
            exact appends_bind (appends_mark_seen _) fun _ =>
              appends_bind (appends_pushbyte _) fun _ =>
              appends_bind (appends_pushint _) fun _ => appends_pushbytes _
      | jkeyword sv =>
        apply appends_bind appends_getState
        intro st
        cases seenLookup st (.jkeyword sv) with
        | some id => exact appends_bind (appends_pushbyte _) fun _ => appends_pushint _
        | none =>
          cases regLookup st (.jkeyword sv) with
          | some nm =>
            exact appends_bind (appends_mark_seen _) fun _ =>
              appends_bind (appends_pushbyte _) fun _ =>
              appends_bind (appends_pushint _) fun _ => appends_pushbytes _
          | none =>
            exact appends_bind (appends_mark_seen _) fun _ =>
              appends_bind (appends_pushbyte _) fun _ =>
              appends_bind (appends_pushint _) fun _ => appends_pushbytes _
      | jbuffer bv =>
        apply appends_bind appends_getState
        intro st
        cases seenLookup st (.jbuffer bv) with
        | some id => exact appends_bind (appends_pushbyte _) fun _ => appends_pushint _
        | none =>
          cases regLookup st (.jbuffer bv) with
          | some nm =>
            exact appends_bind (appends_mark_seen _) fun _ =>
              appends_bind (appends_pushbyte _) fun _ =>
              appends_bind (appends_pushint _) fun _ => appends_pushbytes _
          | none =>
            exact appends_bind (appends_mark_seen _) fun _ =>
              appends_bind (appends_pushbyte _) fun _ =>
              appends_bind (appends_pushint _) fun _ => appends_pushbytes _
      | jarray xs =>
        apply appends_bind appends_getState
        intro st
        cases seenLookup st (.jarray xs) with
        | some id => exact appends_bind (appends_pushbyte _) fun _ => appends_pushint _
        | none =>
          cases regLookup st (.jarray xs) with
          | some nm =>
            exact appends_bind (appends_mark_seen _) fun _ =>
              appends_bind (appends_pushbyte _) fun _ =>
              appends_bind (appends_pushint _) fun _ => appends_pushbytes _
          | none =>
            exact appends_bind (appends_mark_seen _) fun _ =>
              appends_bind (appends_pushbyte _) fun _ =>
              appends_bind (appends_pushint _) fun _ =>
              appends_mlist (fun el => ih1 el (fl + 1)) xs
      | jtuple flag xs =>
        apply appends_bind appends_getState
        intro st
        cases seenLookup st (.jtuple flag xs) with
        | some id => exact appends_bind (appends_pushbyte _) fun _ => appends_pushint _
        | none =>
          cases regLookup st (.jtuple flag xs) with
          | some nm =>
            exact appends_bind (appends_mark_seen _) fun _ =>
              appends_bind (appends_pushbyte _) fun _ =>
              appends_bind (appends_pushint _) fun _ => appends_pushbytes _
          | none =>
            exact appends_bind (appends_pushbyte _) fun _ =>
              appends_bind (appends_pushint _) fun _ =>
              appends_bind (appends_pushint _) fun _ =>
              appends_bind (appends_mlist (fun el => ih1 el (fl + 1)) xs) fun _ =>
              appends_mark_seen _
      | jtable proto kvs =>
        apply appends_bind appends_getState
        intro st
        cases seenLookup st (.jtable proto kvs) with
        | some id => exact appends_bind (appends_pushbyte _) fun _ => appends_pushint _
        | none =>
          cases regLookup st (.jtable proto kvs) with
          | some nm =>
            exact appends_bind (appends_mark_seen _) fun _ =>
              appends_bind (appends_pushbyte _) fun _ =>
              appends_bind (appends_pushint _) fun _ => appends_pushbytes _
          | none =>
            apply appends_bind (appends_mark_seen _)
            intro _
            apply appends_bind (appends_pushbyte _)
            intro _
            apply appends_bind (appends_pushint _)
            intro _
            apply appends_bind
            · cases proto with
              | some p => exact ih1 p (fl + 1)
              | none => exact appends_pure _
            · intro _
              exact appends_mlist (fun kv =>
                appends_bind (ih1 kv.1 (fl + 1)) fun _ => ih1 kv.2 (fl + 1)) kvs
      | jstruct kvs =>
        apply appends_bind appends_getState
        intro st
        cases seenLookup st (.jstruct kvs) with
        | some id => exact appends_bind (appends_pushbyte _) fun _ => appends_pushint _
        | none =>
          cases regLookup st (.jstruct kvs) with
          | some nm =>
            exact appends_bind (appends_mark_seen _) fun _ =>
              appends_bind (appends_pushbyte _) fun _ =>
              appends_bind (appends_pushint _) fun _ => appends_pushbytes _
          | none =>
            exact appends_bind (appends_pushbyte _) fun _ =>
              appends_bind (appends_pushint _) fun _ =>
              appends_bind (appends_mlist (fun kv =>
                appends_bind (ih1 kv.1 (fl + 1)) fun _ => ih1 kv.2 (fl + 1)) kvs) fun _ =>
              appends_mark_seen _
      | jabstract t sz h =>
        apply appends_bind appends_getState
        intro st
        cases seenLookup st (.jabstract t sz h) with
        | some id => exact appends_bind (appends_pushbyte _) fun _ => appends_pushint _
        | none =>
          cases regLookup st (.jabstract t sz h) with
          | some nm =>
            exact appends_bind (appends_mark_seen _) fun _ =>
              appends_bind (appends_pushbyte _) fun _ =>
              appends_bind (appends_pushint _) fun _ => appends_pushbytes _
          | none => exact ih6 t sz h fl
      | jfunction fn =>
        apply appends_bind appends_getState
        intro st
        cases seenLookup st (.jfunction fn) with
        | some id => exact appends_bind (appends_pushbyte _) fun _ => appends_pushint _
        | none =>
          cases regLookup st (.jfunction fn) with
          | some nm =>
            exact appends_bind (appends_mark_seen _) fun _ =>
              appends_bind (appends_pushbyte _) fun _ =>
              appends_bind (appends_pushint _) fun _ => appends_pushbytes _
          | none =>
            apply appends_bind (appends_pushbyte _)
            intro _
            apply appends_bind (ih2 fn.fdef fl)
            intro _
            apply appends_bind (appends_mark_seen _)
            intro _
            apply appends_mlist
            intro i
            cases fn.envs.get? i with
            | some e => exact ih3 e (fl + 1)
            | none => exact appends_throw _
      | jfiber fb =>
        apply appends_bind appends_getState
        intro st
        cases seenLookup st (.jfiber fb) with
        | some id => exact appends_bind (appends_pushbyte _) fun _ => appends_pushint _
        | none =>
          cases regLookup st (.jfiber fb) with
          | some nm =>
            exact appends_bind (appends_mark_seen _) fun _ =>
              appends_bind (appends_pushbyte _) fun _ =>
              appends_bind (appends_pushint _) fun _ => appends_pushbytes _
          | none =>
            exact appends_bind (appends_mark_seen _) fun _ =>
              appends_bind (appends_pushbyte _) fun _ => ih4 fb (fl + 1)
    · intro d fl
      simp only [marshal_one_def]
      apply appends_bind (appends_stackcheck _)
      intro _
      apply appends_bind appends_mark_def
      intro _
      apply appends_bind (appends_pushint _)
      intro _
      apply appends_bind (appends_pushint _)
      intro _
      apply appends_bind (appends_pushint _)
      intro _
      apply appends_bind (appends_pushint _)
      intro _
      apply appends_bind (appends_pushint _)
      intro _
      apply appends_bind (appends_ite (appends_pushint _) (appends_pure _))
      intro _
      apply appends_bind (appends_ite (appends_pushint _) (appends_pure _))
      intro _
      apply appends_bind
      · cases (janet_func_addflags d).name with
        | some nm => exact ih1 (.jstring nm) fl
        | none => exact appends_ite (appends_throw _) (appends_pure _)
      · intro _
        apply appends_bind
        · cases (janet_func_addflags d).source with
          | some src => exact ih1 (.jstring src) fl
          | none => exact appends_ite (appends_throw _) (appends_pure _)
        · intro _
          apply appends_bind (appends_mlist (fun c => ih1 c fl) _)
          intro _
          apply appends_bind (appends_mlist appends_push_bytecode_word _)
          intro _
          apply appends_bind (appends_mlist (fun e => appends_pushint e) _)
          intro _
          apply appends_bind (appends_mlist (fun sd => ih2 sd fl) _)
          intro _
          exact appends_ite (appends_smap_loop _ _) (appends_pure _)
    · intro e fl
      simp only [marshal_one_env]
      apply appends_bind (appends_stackcheck _)
      intro _
      apply appends_bind appends_mark_env
      intro _
      apply appends_bind (appends_pushint _)
      intro _
      apply appends_bind (appends_pushint _)
      intro _
      apply appends_ite
      · cases e.contents with
        | fib f => exact ih1 (.jfiber f) (fl + 1)
        | vals vs => exact appends_throw _
      · cases e.contents with
        | vals vs => exact appends_mlist (fun v => ih1 v (fl + 1)) vs
        | fib f => exact appends_throw _
    · intro fb fl
      simp only [marshal_one_fiber]
      apply appends_bind (appends_stackcheck _)
      intro _
      apply appends_bind (appends_ite (appends_throw _) (appends_pure _))
      intro _
      apply appends_bind (appends_pushint _)
      intro _
      apply appends_bind (appends_pushint _)
      intro _
      apply appends_bind (appends_pushint _)
      intro _
      apply appends_bind (appends_pushint _)
      intro _
      apply appends_bind (appends_pushint _)
      intro _
      apply appends_bind (ih5 fb fb.frame (fb.stackstart - JANET_FRAME_SIZE) fl)
      intro _
      cases fb.child with
      | some c => exact ih1 (.jfiber c) (fl + 1)
      | none => exact appends_pure _
    · intro fb i j fl
      simp only [marshal_fiber_frames]
      apply appends_ite
      · cases frameAt fb i with
        | none => exact appends_throw _
        | some frame0 =>
          dsimp only
          cases (janet_frame_addenvflag frame0).func with
          | none => exact appends_throw _
          | some fn =>
            apply appends_bind (appends_pushint _)
            intro _
            apply appends_bind (appends_pushint _)
            intro _
            apply appends_bind (appends_pushint _)
            intro _
            apply appends_bind (ih1 (.jfunction fn) (fl + 1))
            intro _
            apply appends_bind
            · cases (janet_frame_addenvflag frame0).env with
              | some env => exact ih3 env (fl + 1)
              | none => exact appends_pure _
            · intro _
              apply appends_bind
                (appends_mlist (fun k => ih1 (fiberDataAt fb k) (fl + 1)) _)
              intro _
              exact ih5 fb _ _ fl
      · exact appends_pure _
    · intro t sz h fl
      simp only [marshal_one_abstract]
      cases h with
      | some hookBytes =>
        exact appends_bind (appends_mark_seen _) fun _ =>
          appends_bind (appends_pushbyte _) fun _ =>
          appends_bind (ih1 (.jkeyword t) (fl + 1)) fun _ =>
          appends_bind (appends_pushint _) fun _ => appends_pushbytes _
      | none => exact appends_throw _

/-! ## Claim C6: alive fibers are refused before any frame data -/

/-- C6: marshaling a fiber whose status is JANET_STATUS_ALIVE fails with the
alive-fiber error before anything of the fiber is written (the writer state,
in particular the output buffer, is exactly the input state); a fiber in any
other status proceeds past this check: the fiber header (starting with the
flags word, HASCHILD folded in) is written to the buffer. -/
theorem claim_C6_alive_fiber_refused (fuel : Nat) (fib : JanetFiber) (flags : Int) (st : MarshalState)
    (hguard : ¬ JANET_RECURSION_GUARD < (u32 flags &&& 0xFFFF)) :
    (janet_fiber_status fib = JANET_STATUS_ALIVE →
      marshal_one_fiber (fuel + 1) fib flags st = (.error .aliveFiber, st)) ∧
    (janet_fiber_status fib ≠ JANET_STATUS_ALIVE →
      ∃ t, ((marshal_one_fiber (fuel + 1) fib flags st).2).revbuf =
        t ++ ((pushintBytes (if fib.child.isSome then
            orFlag fib.flags JANET_FIBER_FLAG_HASCHILD else fib.flags)).map
          WEvent.b).reverse ++ st.revbuf) := by
  have hsc : stackcheck flags st = (.ok (), st) := by
    simp only [stackcheck, if_neg hguard]
    rfl
  constructor
  · intro halive
    simp only [marshal_one_fiber, XM.bind_def, hsc, if_pos halive]
    rfl
  · intro hdead
    simp only [marshal_one_fiber, XM.bind_def, hsc, if_neg hdead]
    set fflags := (if fib.child.isSome then
        orFlag fib.flags JANET_FIBER_FLAG_HASCHILD else fib.flags) with hff
    have hp : pushint fflags st =
        (.ok (), { st with revbuf :=
          ((pushintBytes fflags).map WEvent.b).reverse ++ st.revbuf }) := rfl
    simp only [hp]
    set st1 : MarshalState := { st with revbuf :=
      ((pushintBytes fflags).map WEvent.b).reverse ++ st.revbuf } with hst1
    have hrest : Appends (pushint fib.frame >>= fun _ =>
        pushint fib.stackstart >>= fun _ =>
        pushint fib.stacktop >>= fun _ =>
        pushint fib.maxstack >>= fun _ =>
        marshal_fiber_frames fuel fib fib.frame (fib.stackstart - JANET_FRAME_SIZE)
          flags >>= fun _ =>
        (match fib.child with
         | some c => marshal_one fuel (.jfiber c) (flags + 1)
         | none => pure ()) : MarshM Unit) := by
      apply appends_bind (appends_pushint _)
      intro _
      apply appends_bind (appends_pushint _)
      intro _
      apply appends_bind (appends_pushint _)
      intro _
      apply appends_bind (appends_pushint _)
      intro _
      apply appends_bind ((appends_marshal fuel).2.2.2.2.1 fib _ _ _)
      intro _
      cases fib.child with
      | some c => exact (appends_marshal fuel).1 _ _
      | none => exact appends_pure _
    obtain ⟨t, ht⟩ := hrest st1
    simp only [XM.bind_def] at ht
    refine ⟨t, ?_⟩
    rw [ht]
    simp [hst1, List.append_assoc]

/-- Witness for C6: a concrete alive fiber is refused with an untouched
state, and a concrete dead fiber proceeds to emit its header. -/
theorem claim_C6_alive_fiber_refused_witness :
    marshal_one_fiber 3 aliveFiber0 0 (initMarshalState [] none) =
      (.error .aliveFiber, initMarshalState [] none) ∧
    ∃ t, ((marshal_one_fiber 3 deadFiber0 0 (initMarshalState [] none)).2).revbuf =
      t ++ ((pushintBytes (if deadFiber0.child.isSome then
          orFlag deadFiber0.flags JANET_FIBER_FLAG_HASCHILD else deadFiber0.flags)).map
        WEvent.b).reverse ++ (initMarshalState [] none).revbuf := by
  constructor
  · exact (claim_C6_alive_fiber_refused 2 aliveFiber0 0 (initMarshalState [] none)
      (by decide)).1 (by decide)
  · exact (claim_C6_alive_fiber_refused 2 deadFiber0 0 (initMarshalState [] none)
      (by decide)).2 (by decide)

/-! ## Claim C10: marshal is not atomic on failure -/

/-- C10: the writer only ever appends to the caller-supplied output buffer,
also when it fails (the state after a janet_panic is the state at the panic),
so a failed janet_marshal leaves every byte appended before the failure point
in the buffer.  Concretely, marshaling an array holding 5 and an alive fiber
into a buffer already holding the byte 7 fails with the alive-fiber error and
leaves the buffer holding the prior byte plus the partial encoding
LB_ARRAY, count 2, the 5, and the LB_FIBER lead byte. -/
theorem claim_C10_marshal_not_atomic :
    (∀ (fuel : Nat) (x : Janet) (flags : Int) (st : MarshalState),
      ∃ t, ((marshal_one fuel x flags st).2).revbuf = t ++ st.revbuf) ∧
    (janet_marshal 4 [7] (.jarray [.jint 5, .jfiber aliveFiber0]) none 0).1 =
      .error .aliveFiber ∧
    outputBytes ((janet_marshal 4 [7] (.jarray [.jint 5, .jfiber aliveFiber0]) none 0).2) =
      [7, 209, 2, 5, 204] := by
  refine ⟨fun fuel x flags st => (appends_marshal fuel).1 x flags st, ?_, ?_⟩
  · rfl
  · rfl

end Marsh
